import Mathlib

/-!
Shallow embedding of the parcel (lot) generation and maintenance core of the
`map_model` crate (`src/map_model/src/objects/lot.rs`).  Scalars are modelled
as rationals; the geometry predicates of the external `geom` crate, the
terrain height field, the spatial index and the pseudo-random generator are
not part of the excerpted sources and are modelled from the specification
(each such definition carries a doc comment starting `Modelled from the
spec:`).  Everything taken from `lot.rs` itself keeps the source's structure
and names.
-/

namespace Scale

/-- Two-dimensional vector with rational coordinates (models `geom::Vec2`). -/
structure Vec2 where
  x : ℚ
  y : ℚ
  deriving DecidableEq, Repr

instance : Add Vec2 := ⟨fun a b => ⟨a.x + b.x, a.y + b.y⟩⟩

instance : HMul Vec2 ℚ Vec2 := ⟨fun v q => ⟨v.x * q, v.y * q⟩⟩

instance : HMul ℚ Vec2 Vec2 := ⟨fun q v => ⟨q * v.x, q * v.y⟩⟩

instance : Sub Vec2 := ⟨fun a b => ⟨a.x - b.x, a.y - b.y⟩⟩

/-- Modelled from the spec: the `geom` crate's `Vec2::perpendicular`,
the counter-clockwise perpendicular of a vector. -/
def Vec2.perpendicular (v : Vec2) : Vec2 := ⟨-v.y, v.x⟩

/-- Axis-aligned bounding box, lower-left and upper-right corners
(models `geom::AABB`). -/
structure AABB where
  ll : Vec2
  ur : Vec2
  deriving DecidableEq, Repr

/-- Modelled from the spec: axis-aligned bounding-box overlap, the coarse
filter used by spatial queries (closed-interval overlap on both axes). -/
def AABB.intersects (a b : AABB) : Bool :=
  decide (a.ll.x ≤ b.ur.x) && decide (b.ll.x ≤ a.ur.x) &&
  decide (a.ll.y ≤ b.ur.y) && decide (b.ll.y ≤ a.ur.y)

/-- Oriented rectangle given by its four corners (models `geom::OBB`,
whose representation is the corner array). -/
structure OBB where
  c0 : Vec2
  c1 : Vec2
  c2 : Vec2
  c3 : Vec2
  deriving DecidableEq, Repr

/-- Modelled from the spec: `OBB::new(center, axis, w, h)` builds the
oriented rectangle centered at `center` with axes `(axis, perpendicular
axis)` and extents `(w, h)` (half-extents `w/2`, `h/2` along each axis). -/
def OBB.new (center axis : Vec2) (w h : ℚ) : OBB :=
  let a := axis * (w * (1 / 2 : ℚ))
  let b := axis.perpendicular * (h * (1 / 2 : ℚ))
  ⟨center - a - b, center + a - b, center + a + b, center - a + b⟩

/-- Modelled from the spec: bounding-box computation for an oriented
rectangle (`OBB::bbox`), the componentwise min/max of its corners. -/
def OBB.bbox (o : OBB) : AABB :=
  ⟨⟨min (min o.c0.x o.c1.x) (min o.c2.x o.c3.x),
    min (min o.c0.y o.c1.y) (min o.c2.y o.c3.y)⟩,
   ⟨max (max o.c0.x o.c1.x) (max o.c2.x o.c3.x),
    max (max o.c0.y o.c1.y) (max o.c2.y o.c3.y)⟩⟩

/-- A polygon is its list of vertices (models `geom::Polygon`). -/
abbrev Polygon := List Vec2

/-- The corner polygon of an oriented rectangle
(`Polygon(shape.corners.to_vec())` in the source). -/
def OBB.toPolygon (o : OBB) : Polygon := [o.c0, o.c1, o.c2, o.c3]

/-- Modelled from the spec: bounding-box computation for a polygon
(`Polygon::bbox`), folding min/max over the vertices. -/
def polygonBBox (p : Polygon) : AABB :=
  match p with
  | [] => ⟨⟨0, 0⟩, ⟨0, 0⟩⟩
  | v :: vs =>
    vs.foldl (fun bb u =>
      ⟨⟨min bb.ll.x u.x, min bb.ll.y u.y⟩, ⟨max bb.ur.x u.x, max bb.ur.y u.y⟩⟩)
      ⟨v, v⟩

/-- Modelled from the spec: a road's generated centerline with
point-along-polyline stepping.  `length` is the total arc length, `sample d`
yields the point and unit direction at arc length `d`, and `bbox` is the
polyline's bounding box (`generated_points.bbox()` in the source). -/
structure Polyline where
  length : ℚ
  sample : ℚ → Vec2 × Vec2
  bbox : AABB

/-- Modelled from the spec: the `points_dirs_manual` cursor.  `next d`
returns the point and direction at arc length `d`, or nothing once the walk
runs off the end of the centerline. -/
def Polyline.next (pl : Polyline) (d : ℚ) : Option (Vec2 × Vec2) :=
  if d ≤ pl.length then some (pl.sample d) else none

/-- Building record: the mesh face polygons (`b.mesh.faces`, the color
component of each face is ignored by this core). -/
structure Building where
  faces : List Polygon

/-- Intersection record: its boundary polygon. -/
structure Inter where
  polygon : Polygon

/-- Road record, the fields consumed by `lot.rs`: endpoint intersections,
endpoint coordinates, width, length, generated centerline, owned parcel
list, and the per-end sidewalk presence (modelled from the spec's
description of `sidewalks(src)` as two flags). -/
structure Road where
  src : ℕ
  dst : ℕ
  src_point : Vec2
  dst_point : Vec2
  width : ℚ
  length : ℚ
  generated_points : Polyline
  lots : List ℕ
  sidewalkOutgoing : Bool
  sidewalkIncoming : Bool

/-- Parcel classification (`LotKind`). -/
inductive LotKind where
  | Unassigned
  | Residential
  | Commercial
  deriving DecidableEq, Repr

/-- Parcel record (`Lot`). -/
structure Lot where
  id : ℕ
  parent : ℕ
  kind : LotKind
  shape : OBB
  size : ℚ
  deriving DecidableEq, Repr

/-- Tagged key stored in the spatial index (`ProjectKind`). -/
inductive ProjectKind where
  | road (r : ℕ)
  | inter (i : ℕ)
  | lot (h : ℕ)
  | building (b : ℕ)
  | ground
  deriving DecidableEq, Repr

/-- `ProjectKind::to_lot`. -/
def ProjectKind.to_lot : ProjectKind → Option ℕ
  | .lot h => some h
  | _ => none

/-- The parcel collection: a slot-map issuing fresh keys (models `Lots`,
a slotmap keyed by `LotID`).  `nextKey` is the next fresh key; every live
key is below it. -/
structure Lots where
  nextKey : ℕ
  find : ℕ → Option Lot

/-- `insert_with_key`: generates a fresh key, stores the record built from
it, and returns the key. -/
def Lots.insert_with_key (ls : Lots) (f : ℕ → Lot) : ℕ × Lots :=
  (ls.nextKey,
   ⟨ls.nextKey + 1,
    fun k => if k = ls.nextKey then some (f ls.nextKey) else ls.find k⟩)

/-- `remove`: deletes a key, returning the record that was stored there
(nothing if the key is absent). -/
def Lots.remove (ls : Lots) (k : ℕ) : Option Lot × Lots :=
  match ls.find k with
  | some l => (some l, ⟨ls.nextKey, fun k' => if k' = k then none else ls.find k'⟩)
  | none => (none, ls)

/-- Modelled from the spec: the spatial index, a store of tagged keys with
their registered bounding boxes. -/
abbrev SpatialMap := List (ProjectKind × AABB)

/-- Modelled from the spec: `query` returns every tagged key whose
registered bounding box intersects the query bounding box (coarse filter,
exhaustive over registered boxes). -/
def SpatialMap.query (s : SpatialMap) (bb : AABB) : List ProjectKind :=
  (s.filter (fun e => e.2.intersects bb)).map Prod.fst

/-- Modelled from the spec: registering a parcel's bounding box under its
key (`spatial.insert(id, bbox)`). -/
def SpatialMap.insertLot (s : SpatialMap) (k : ℕ) (bb : AABB) : SpatialMap :=
  (ProjectKind.lot k, bb) :: s

/-- Modelled from the spec: unregistering a parcel key
(`spatial_map.remove(lot)`), a no-op if the key is absent. -/
def SpatialMap.removeLot (s : SpatialMap) (k : ℕ) : SpatialMap :=
  s.filter (fun e => decide (e.1 ≠ ProjectKind.lot k))

/-- Modelled from the spec: the trusted external predicates consumed by
`lot.rs` — the terrain height field and the exact-geometry intersection
tests of the `geom` crate. -/
structure GeomCtx where
  height : Vec2 → ℚ
  obbIntersects : OBB → OBB → Bool
  roadIntersects : Road → OBB → Bool
  polyIntersectsOBB : Polygon → OBB → Bool
  polyIntersectsPoly : Polygon → Polygon → Bool

/-- The map-model aggregate state: parcel collection, spatial index, and
the road / intersection / building stores. -/
structure MapState where
  lots : Lots
  spatial_map : SpatialMap
  roads : ℕ → Road
  intersections : ℕ → Inter
  buildings : ℕ → Building

/-- The per-candidate rejection test of `Lot::try_make`'s query loop: the
`match obj` dispatch on the tagged kind.  A parcel key that is not live in
the collection triggers no rejection (the source indexes the collection
directly, which on a coherent map always finds the record). -/
def rejects (ctx : GeomCtx) (st : MapState) (shape : OBB) : ProjectKind → Bool
  | .road r => ctx.roadIntersects (st.roads r) shape
  | .inter i => ctx.polyIntersectsOBB (st.intersections i).polygon shape
  | .lot h =>
    match st.lots.find h with
    | some l => ctx.obbIntersects l.shape shape
    | none => false
  | .building b =>
    (st.buildings b).faces.any (fun p => ctx.polyIntersectsPoly p shape.toPolygon)
  | .ground => false

/-- `Lot::try_make`: build the candidate rectangle, reject on low terrain
or on any exact-geometry hit among the spatial candidates, otherwise commit
the new parcel to the collection and the index and return its key.  Returns
the optional new key together with the resulting state. -/
def tryMake (ctx : GeomCtx) (st : MapState) (parent : ℕ) (at_ axis : Vec2)
    (size : ℚ) : Option ℕ × MapState :=
  let shape := OBB.new (at_ + axis * size * (1 / 2 : ℚ)) axis size size
  if ctx.height at_ < (12 / 100 : ℚ) then (none, st)
  else if (st.spatial_map.query shape.bbox).any (rejects ctx st shape) then
    (none, st)
  else
    let bbox := shape.bbox
    let p := st.lots.insert_with_key
      (fun id => ⟨id, parent, LotKind.Residential, shape, size⟩)
    (some p.1,
     { st with lots := p.2, spatial_map := st.spatial_map.insertLot p.1 bbox })

/-- Modelled from the spec: injective encoding of a rational into a natural
number, a building block of the float-hash model. -/
def qEnc (q : ℚ) : ℕ :=
  Nat.pair (2 * q.num.natAbs + if q.num < 0 then 1 else 0) q.den

/-- Modelled from the spec: `common::rand::rand3(a, b, c).to_bits()` — a
pure hash of three floats yielding the 64-bit seed; modelled as an
injective pure hash of the three rationals. -/
def rand3bits (a b c : ℚ) : ℕ :=
  Nat.pair (qEnc a) (Nat.pair (qEnc b) (qEnc c))

/-- The seed fed to the frontage generator's PRNG for one road side:
`rand3(src.x + dst.x, dst.y + src.y, side * length).to_bits()`. -/
def genSideSeed (r : Road) (side : ℚ) : ℕ :=
  rand3bits (r.src_point.x + r.dst_point.x) (r.dst_point.y + r.src_point.y)
    (side * r.length)

/-- Modelled from the spec: a deterministic pseudo-random generator
constructible from a 64-bit seed (`SmallRng::seed_from_u64`), exposing
uniform selection over a fixed finite set.  `cnt` counts draws made. -/
structure Rng where
  seed : ℕ
  cnt : ℕ
  deriving DecidableEq, Repr

/-- The fixed size set `[20.0f32, 30.0, 40.0]`. -/
def lotSizes : List ℚ := [20, 30, 40]

/-- Modelled from the spec: one uniform draw from the size set
(`picksize`, i.e. `[20.0f32, 30.0, 40.0].choose(&mut rng)`), returning the
drawn size and the advanced generator. -/
def Rng.pickSize (g : Rng) : ℚ × Rng :=
  (lotSizes.getD ((g.seed + g.cnt) % 3) 20, ⟨g.seed, g.cnt + 1⟩)

/-- The `while let Some((pos, dir)) = along.next(d)` loop of `gen_side`:
attempt a parcel at each arc length, pushing successes and advancing by
`size/2 + 2.0` plus the next draw's half size after a success, or by `2.0`
after a failure.  The proof argument `hsize` (the current size is
non-negative, true of every drawn size) only serves termination. -/
def genSideLoop (ctx : GeomCtx) (road : ℕ) (side w : ℚ) (pl : Polyline)
    (st : MapState) (rng : Rng) (size : ℚ) (hsize : 0 ≤ size) (d : ℚ)
    (acc : List ℕ) : MapState × List ℕ :=
  match h : pl.next d with
  | none => (st, acc)
  | some pd =>
    let axis : Vec2 := side * pd.2.perpendicular
    match tryMake ctx st road (pd.1 + axis * (w + 1)) axis size with
    | (some id, st') =>
      let p := rng.pickSize
      genSideLoop ctx road side w pl st' p.2 p.1
        (by
          show (0 : ℚ) ≤ lotSizes.getD ((rng.seed + rng.cnt) % 3) 20
          have h3 : (rng.seed + rng.cnt) % 3 < 3 := Nat.mod_lt _ (by norm_num)
          set m := (rng.seed + rng.cnt) % 3 with hm
          interval_cases m <;> decide)
        (d + size * (1 / 2 : ℚ) + 2 + p.1 * (1 / 2 : ℚ)) (acc ++ [id])
    | (none, st') =>
      genSideLoop ctx road side w pl st' rng size hsize (d + 2) acc
termination_by Nat.ceil (pl.length - d + 1)
decreasing_by
· have hd : d ≤ pl.length := by
    rw [Polyline.next] at h
    split_ifs at h with hd0
    · exact hd0
  have hp : (0 : ℚ) ≤ (Rng.pickSize rng).1 := by
    show (0 : ℚ) ≤ lotSizes.getD ((rng.seed + rng.cnt) % 3) 20
    have h3 : (rng.seed + rng.cnt) % 3 < 3 := Nat.mod_lt _ (by norm_num)
    set m := (rng.seed + rng.cnt) % 3 with hm
    interval_cases m <;> decide
  have hx : (0 : ℚ) < pl.length - d + 1 := by linarith
  have h1 : 0 < Nat.ceil (pl.length - d + 1) := Nat.ceil_pos.mpr hx
  have hle : (pl.length - d + 1) ≤ (Nat.ceil (pl.length - d + 1) : ℚ) :=
    Nat.le_ceil _
  have hcast : ((Nat.ceil (pl.length - d + 1) - 1 : ℕ) : ℚ) =
      ((Nat.ceil (pl.length - d + 1) : ℕ) : ℚ) - 1 := by
    push_cast [Nat.cast_sub h1]
    ring
  have hstep : pl.length -
      (d + size * (1 / 2 : ℚ) + 2 + (Rng.pickSize rng).1 * (1 / 2 : ℚ)) + 1 ≤
      ((Nat.ceil (pl.length - d + 1) - 1 : ℕ) : ℚ) := by
    rw [hcast]
    linarith
  have h2 : Nat.ceil (pl.length -
      (d + size * (1 / 2 : ℚ) + 2 + (Rng.pickSize rng).1 * (1 / 2 : ℚ)) + 1) ≤
      Nat.ceil (pl.length - d + 1) - 1 := Nat.ceil_le.mpr hstep
  omega
· have hd : d ≤ pl.length := by
    rw [Polyline.next] at h
    split_ifs at h with hd0
    · exact hd0
  have hx : (0 : ℚ) < pl.length - d + 1 := by linarith
  have h1 : 0 < Nat.ceil (pl.length - d + 1) := Nat.ceil_pos.mpr hx
  have hle : (pl.length - d + 1) ≤ (Nat.ceil (pl.length - d + 1) : ℚ) :=
    Nat.le_ceil _
  have hcast : ((Nat.ceil (pl.length - d + 1) - 1 : ℕ) : ℚ) =
      ((Nat.ceil (pl.length - d + 1) : ℕ) : ℚ) - 1 := by
    push_cast [Nat.cast_sub h1]
    ring
  have hstep : pl.length - (d + 2) + 1 ≤
      ((Nat.ceil (pl.length - d + 1) - 1 : ℕ) : ℚ) := by
    rw [hcast]
    linarith
  have h2 : Nat.ceil (pl.length - (d + 2) + 1) ≤
      Nat.ceil (pl.length - d + 1) - 1 := Nat.ceil_le.mpr hstep
  omega

/-- `gen_side`: seed the PRNG from the road geometry and side, draw the
first size, walk the centerline starting at half that size, and finally
extend the road's parcel list with the batch of successes.  Returns the
resulting state together with the list of created parcel keys. -/
def genSide (ctx : GeomCtx) (st : MapState) (road : ℕ) (side : ℚ) :
    MapState × List ℕ :=
  let r := st.roads road
  let w := r.width * (1 / 2 : ℚ)
  let rng0 : Rng := ⟨genSideSeed r side, 0⟩
  let p := rng0.pickSize
  let res := genSideLoop ctx road side w r.generated_points st p.2 p.1
    (by
      show (0 : ℚ) ≤ lotSizes.getD ((rng0.seed + rng0.cnt) % 3) 20
      have h3 : (rng0.seed + rng0.cnt) % 3 < 3 := Nat.mod_lt _ (by norm_num)
      set m := (rng0.seed + rng0.cnt) % 3 with hm
      interval_cases m <;> decide)
    (p.1 * (1 / 2 : ℚ)) []
  ({ res.1 with
      roads := Function.update res.1.roads road
        { res.1.roads road with lots := (res.1.roads road).lots ++ res.2 } },
   res.2)

/-- `Lot::generate_along_road`, additionally returning the list of created
parcel keys: check the sidewalk pair once, then run `gen_side` for the
outgoing (`+1`) and incoming (`-1`) sides that have a sidewalk. -/
def generateAlongRoadRun (ctx : GeomCtx) (st : MapState) (road : ℕ) :
    MapState × List ℕ :=
  let pairOutgoing := (st.roads road).sidewalkOutgoing
  let pairIncoming := (st.roads road).sidewalkIncoming
  let r1 := if pairOutgoing then genSide ctx st road 1 else (st, [])
  let r2 := if pairIncoming then genSide ctx r1.1 road (-1) else (r1.1, [])
  (r2.1, r1.2 ++ r2.2)

/-- `Lot::generate_along_road` (state part). -/
def generateAlongRoad (ctx : GeomCtx) (st : MapState) (road : ℕ) : MapState :=
  (generateAlongRoadRun ctx st road).1

/-- The first query pass of `remove_intersecting_lots`: parcels whose exact
rectangle intersects the road's swept shape, among the spatial candidates
over the centerline's bounding box.  A parcel key that is not live is
skipped (the source indexes the collection directly, which on a coherent
map always finds the record). -/
def toRemoveRoad (ctx : GeomCtx) (st : MapState) (r : Road) : List ℕ :=
  (st.spatial_map.query r.generated_points.bbox).filterMap (fun kind =>
    kind.to_lot.bind (fun id =>
      (st.lots.find id).bind (fun l =>
        if ctx.roadIntersects r l.shape then some id else none)))

/-- The `rp` closure of `remove_intersecting_lots`: parcels whose corner
polygon intersects a terminal intersection's polygon, among the spatial
candidates over that polygon's bounding box. -/
def toRemoveInterPoly (ctx : GeomCtx) (st : MapState) (p : Polygon) : List ℕ :=
  (st.spatial_map.query (polygonBBox p)).filterMap (fun kind =>
    kind.to_lot.bind (fun id =>
      (st.lots.find id).bind (fun l =>
        if ctx.polyIntersectsPoly p l.shape.toPolygon then some id else none)))

/-- The complete candidate list of `remove_intersecting_lots`: road pass,
then the `src` and `dst` intersection passes — computed entirely before any
mutation. -/
def toRemove (ctx : GeomCtx) (st : MapState) (road : ℕ) : List ℕ :=
  let r := st.roads road
  toRemoveRoad ctx st r
    ++ toRemoveInterPoly ctx st (st.intersections r.src).polygon
    ++ toRemoveInterPoly ctx st (st.intersections r.dst).polygon

/-- `Vec::swap_remove`: replace index `i` with the last element and drop
the last element. -/
def swapRemove (L : List ℕ) (i : ℕ) : List ℕ :=
  (L.set i (L.getLastD 0)).dropLast

/-- The parent-list cleanup of the removal loop: `position` of the id in
the list, then `swap_remove` it (nothing to do if the id is absent). -/
def roadListErase (rl : List ℕ) (i : ℕ) : List ℕ :=
  match rl.findIdx? (fun x => decide (x = i)) with
  | some v => swapRemove rl v
  | none => rl

/-- The body of the removal loop of `remove_intersecting_lots` for one
marked key: remove from the collection; if it was present, swap-remove its
id from its parent road's list and unregister it from the spatial index. -/
def removeOne (st : MapState) (k : ℕ) : MapState :=
  match st.lots.remove k with
  | (none, _) => st
  | (some l, lots') =>
    { st with
      lots := lots',
      roads := Function.update st.roads l.parent
        { st.roads l.parent with
          lots := roadListErase (st.roads l.parent).lots l.id },
      spatial_map := st.spatial_map.removeLot k }

/-- `Lot::remove_intersecting_lots`: select all candidates from the
pre-state, then process each marked key in order. -/
def removeIntersectingLots (ctx : GeomCtx) (st : MapState) (road : ℕ) :
    MapState :=
  (toRemove ctx st road).foldl removeOne st

/-- The three exposed operations of this core. -/
inductive MapOp where
  | tryMakeOp (parent : ℕ) (at_ axis : Vec2) (size : ℚ)
  | generateOp (road : ℕ)
  | removeOp (road : ℕ)

/-- Apply one exposed operation to the map state. -/
def applyOp (ctx : GeomCtx) (st : MapState) : MapOp → MapState
  | .tryMakeOp p a ax s => (tryMake ctx st p a ax s).2
  | .generateOp r => generateAlongRoad ctx st r
  | .removeOp r => removeIntersectingLots ctx st r

/-- Apply a sequence of exposed operations. -/
def applyOps (ctx : GeomCtx) (ops : List MapOp) (st : MapState) : MapState :=
  ops.foldl (applyOp ctx) st

/-- The spatial-index entries registered under a given parcel key. -/
def lotEntries (s : SpatialMap) (k : ℕ) : SpatialMap :=
  s.filter (fun e => decide (e.1 = ProjectKind.lot k))

/-- Invariant I3 (index coherence): exactly one entry per live parcel,
keyed by its identifier, with the bounding box of its current shape; no
entry for a dead key. -/
def SpatialCoherent (st : MapState) : Prop :=
  ∀ k : ℕ,
    (∀ l, st.lots.find k = some l →
      lotEntries st.spatial_map k = [(ProjectKind.lot k, l.shape.bbox)]) ∧
    (st.lots.find k = none → lotEntries st.spatial_map k = [])

/-- Freshness of the parcel collection's key generator: every key at or
above the next fresh key is dead. -/
def KeysBound (st : MapState) : Prop :=
  ∀ k, st.lots.nextKey ≤ k → st.lots.find k = none

/-- A coherent map: index coherence plus key freshness. -/
def Coherent (st : MapState) : Prop := SpatialCoherent st ∧ KeysBound st

/-- Invariant I1 (non-overlap): the shapes of two distinct live parcels
never intersect. -/
def NoOverlap (ctx : GeomCtx) (st : MapState) : Prop :=
  ∀ k1 k2 l1 l2, k1 ≠ k2 → st.lots.find k1 = some l1 →
    st.lots.find k2 = some l2 → ctx.obbIntersects l1.shape l2.shape = false

/-- Invariant I4 (ownership coherence): every road's parcel list counts a
key once exactly when that key is live with this road as parent. -/
def RoadListsCoherent (st : MapState) : Prop :=
  ∀ rid k, ((st.roads rid).lots.count k) =
    (match st.lots.find k with
     | some l => if l.parent = rid then 1 else 0
     | none => 0)

/-- Soundness of the trusted geometry predicates with respect to bounding
boxes: exact intersection implies coarse bounding-box intersection (this is
what makes the two-phase spatial query exhaustive), and rectangle
intersection is symmetric. -/
def GeomSound (ctx : GeomCtx) : Prop :=
  (∀ a b, ctx.obbIntersects a b = ctx.obbIntersects b a) ∧
  (∀ a b, ctx.obbIntersects a b = true → a.bbox.intersects b.bbox = true) ∧
  (∀ r s, ctx.roadIntersects r s = true →
    r.generated_points.bbox.intersects s.bbox = true) ∧
  (∀ (p : Polygon) (s : OBB), ctx.polyIntersectsPoly p s.toPolygon = true →
    (polygonBBox p).intersects s.bbox = true)

/-- A parcel record with its `parent` field blanked, used to compare two
collections up to ownership. -/
def Lot.stripParent (l : Lot) : Lot := { l with parent := 0 }

/-- Two parcel collections agree on keys and on every field except
`parent`. -/
def LotsEquiv (A B : Lots) : Prop :=
  A.nextKey = B.nextKey ∧
  ∀ k, (A.find k).map Lot.stripParent = (B.find k).map Lot.stripParent

/-- Two road records agree on every field except their parcel list. -/
def RoadGeomEq (a b : Road) : Prop :=
  a.src = b.src ∧ a.dst = b.dst ∧ a.src_point = b.src_point ∧
  a.dst_point = b.dst_point ∧ a.width = b.width ∧ a.length = b.length ∧
  a.generated_points = b.generated_points ∧
  a.sidewalkOutgoing = b.sidewalkOutgoing ∧
  a.sidewalkIncoming = b.sidewalkIncoming

/-- Two map states with identical surrounding geometry: equal spatial
index, intersections and buildings, parcel collections equal up to
ownership, and road records equal up to their parcel lists. -/
def StateRel (s1 s2 : MapState) : Prop :=
  LotsEquiv s1.lots s2.lots ∧ s1.spatial_map = s2.spatial_map ∧
  (∀ rid, RoadGeomEq (s1.roads rid) (s2.roads rid)) ∧
  s1.intersections = s2.intersections ∧ s1.buildings = s2.buildings

/-- The road-versus-rectangle predicate tests the road's swept shape only:
it cannot depend on the road's parcel list. -/
def RoadIntersectsGeomOnly (ctx : GeomCtx) : Prop :=
  ∀ a b s, RoadGeomEq a b → ctx.roadIntersects a s = ctx.roadIntersects b s

/-- The equality of two roads demanded by the determinism property:
identical endpoint coordinates, generated centerline, width, length and
sidewalk layout. -/
def RoadC2Eq (a b : Road) : Prop :=
  a.src_point = b.src_point ∧ a.dst_point = b.dst_point ∧
  a.generated_points = b.generated_points ∧ a.width = b.width ∧
  a.length = b.length ∧ a.sidewalkOutgoing = b.sidewalkOutgoing ∧
  a.sidewalkIncoming = b.sidewalkIncoming

/-- The size and shape of each listed parcel in a state, in list order. -/
def createdSizesShapes (st : MapState) (ids : List ℕ) :
    List (Option (ℚ × OBB)) :=
  ids.map (fun k => (st.lots.find k).map (fun l => (l.size, l.shape)))

/-- The frontage walk exactly as the specification words it: each attempt
is anchored at the centerline point offset outward by half the road width
plus `1.0`; after a success with size `s` and next draw `s'` the next
attempt is `s/2 + 2.0 + s'/2` further along; after a failure it is `2.0`
further; the walk stops when the arc length runs off the centerline. -/
def specFrontageWalk (ctx : GeomCtx) (road : ℕ) (side width : ℚ)
    (pl : Polyline) (st : MapState) (rng : Rng) (size : ℚ) (hsize : 0 ≤ size)
    (d : ℚ) (acc : List ℕ) : MapState × List ℕ :=
  match h : pl.next d with
  | none => (st, acc)
  | some pd =>
    let axis : Vec2 := side * pd.2.perpendicular
    match tryMake ctx st road (pd.1 + axis * (width / 2 + 1)) axis size with
    | (some id, st') =>
      let p := rng.pickSize
      specFrontageWalk ctx road side width pl st' p.2 p.1
        (by
          show (0 : ℚ) ≤ lotSizes.getD ((rng.seed + rng.cnt) % 3) 20
          have h3 : (rng.seed + rng.cnt) % 3 < 3 := Nat.mod_lt _ (by norm_num)
          set m := (rng.seed + rng.cnt) % 3 with hm
          interval_cases m <;> decide)
        (d + (size / 2 + 2 + p.1 / 2)) (acc ++ [id])
    | (none, st') =>
      specFrontageWalk ctx road side width pl st' rng size hsize (d + 2) acc
termination_by Nat.ceil (pl.length - d + 1)
decreasing_by
· have hd : d ≤ pl.length := by
    rw [Polyline.next] at h
    split_ifs at h with hd0
    · exact hd0
  have hp : (0 : ℚ) ≤ (Rng.pickSize rng).1 := by
    show (0 : ℚ) ≤ lotSizes.getD ((rng.seed + rng.cnt) % 3) 20
    have h3 : (rng.seed + rng.cnt) % 3 < 3 := Nat.mod_lt _ (by norm_num)
    set m := (rng.seed + rng.cnt) % 3 with hm
    interval_cases m <;> decide
  have hx : (0 : ℚ) < pl.length - d + 1 := by linarith
  have h1 : 0 < Nat.ceil (pl.length - d + 1) := Nat.ceil_pos.mpr hx
  have hle : (pl.length - d + 1) ≤ (Nat.ceil (pl.length - d + 1) : ℚ) :=
    Nat.le_ceil _
  have hcast : ((Nat.ceil (pl.length - d + 1) - 1 : ℕ) : ℚ) =
      ((Nat.ceil (pl.length - d + 1) : ℕ) : ℚ) - 1 := by
    push_cast [Nat.cast_sub h1]
    ring
  have hstep : pl.length - (d + (size / 2 + 2 + (Rng.pickSize rng).1 / 2)) + 1 ≤
      ((Nat.ceil (pl.length - d + 1) - 1 : ℕ) : ℚ) := by
    rw [hcast]
    linarith
  have h2 : Nat.ceil
      (pl.length - (d + (size / 2 + 2 + (Rng.pickSize rng).1 / 2)) + 1) ≤
      Nat.ceil (pl.length - d + 1) - 1 := Nat.ceil_le.mpr hstep
  omega
· have hd : d ≤ pl.length := by
    rw [Polyline.next] at h
    split_ifs at h with hd0
    · exact hd0
  have hx : (0 : ℚ) < pl.length - d + 1 := by linarith
  have h1 : 0 < Nat.ceil (pl.length - d + 1) := Nat.ceil_pos.mpr hx
  have hle : (pl.length - d + 1) ≤ (Nat.ceil (pl.length - d + 1) : ℚ) :=
    Nat.le_ceil _
  have hcast : ((Nat.ceil (pl.length - d + 1) - 1 : ℕ) : ℚ) =
      ((Nat.ceil (pl.length - d + 1) : ℕ) : ℚ) - 1 := by
    push_cast [Nat.cast_sub h1]
    ring
  have hstep : pl.length - (d + 2) + 1 ≤
      ((Nat.ceil (pl.length - d + 1) - 1 : ℕ) : ℚ) := by
    rw [hcast]
    linarith
  have h2 : Nat.ceil (pl.length - (d + 2) + 1) ≤
      Nat.ceil (pl.length - d + 1) - 1 := Nat.ceil_le.mpr hstep
  omega

/-- One side of the frontage generation exactly as the specification words
it: seed the generator from the road geometry and side, draw the first
size, make the first attempt at arc length half that size, walk, and append
the batch to the road's parcel list. -/
def specFrontageGen (ctx : GeomCtx) (st : MapState) (road : ℕ) (side : ℚ) :
    MapState × List ℕ :=
  let r := st.roads road
  let rng0 : Rng := ⟨genSideSeed r side, 0⟩
  let p := rng0.pickSize
  let res := specFrontageWalk ctx road side r.width r.generated_points st p.2
    p.1
    (by
      show (0 : ℚ) ≤ lotSizes.getD ((rng0.seed + rng0.cnt) % 3) 20
      have h3 : (rng0.seed + rng0.cnt) % 3 < 3 := Nat.mod_lt _ (by norm_num)
      set m := (rng0.seed + rng0.cnt) % 3 with hm
      interval_cases m <;> decide)
    (p.1 / 2) []
  ({ res.1 with
      roads := Function.update res.1.roads road
        { res.1.roads road with lots := (res.1.roads road).lots ++ res.2 } },
   res.2)

/-- A road with source and destination endpoints exchanged (length, width,
centerline and all remaining attributes kept). -/
def Road.swapEnds (r : Road) : Road :=
  { r with
    src := r.dst, dst := r.src,
    src_point := r.dst_point, dst_point := r.src_point }

/-- The generator state after `n` draws from a given seed. -/
def rngAt (seed : ℕ) : ℕ → Rng
  | 0 => ⟨seed, 0⟩
  | n + 1 => ((rngAt seed n).pickSize).2

/-- The `n`-th parcel size drawn from a given seed. -/
def drawnSize (seed n : ℕ) : ℚ := ((rngAt seed n).pickSize).1

/-- Trivial geometry context used to instantiate theorems on concrete
inputs: flat high terrain and no exact-geometry intersections. -/
def trivialCtx : GeomCtx :=
  ⟨fun _ => 1, fun _ _ => false, fun _ _ => false, fun _ _ => false,
   fun _ _ => false⟩

/-- A degenerate centerline of length zero. -/
def emptyPolyline : Polyline :=
  ⟨0, fun _ => (⟨0, 0⟩, ⟨1, 0⟩), ⟨⟨0, 0⟩, ⟨0, 0⟩⟩⟩

/-- A default road with no sidewalks and no parcels. -/
def road0 : Road :=
  ⟨0, 0, ⟨0, 0⟩, ⟨0, 0⟩, 0, 0, emptyPolyline, [], false, false⟩

/-- The empty map state. -/
def emptyState : MapState :=
  ⟨⟨0, fun _ => none⟩, [], fun _ => road0, fun _ => ⟨[]⟩, fun _ => ⟨[]⟩⟩

/-- A concrete straight road of length 1. -/
def roadA : Road :=
  { road0 with dst_point := ⟨1, 0⟩, length := 1 }

/-- The same endpoints as `roadA` but a longer (curved) centerline. -/
def roadB : Road :=
  { roadA with length := 2 }

/-- A geometry context whose terrain is everywhere below the placement
threshold. -/
def lowCtx : GeomCtx :=
  { trivialCtx with height := fun _ => 0 }

/-- The candidate rectangle of `try_make`:
`OBB::new(at + axis * size * 0.5, axis, size, size)`. -/
def candShape (at_ axis : Vec2) (size : ℚ) : OBB :=
  OBB.new (at_ + axis * size * (1 / 2 : ℚ)) axis size size

/-- The state produced by `try_make`'s commit: the new record inserted
under the fresh key, and the shape's bounding box registered under the same
key. -/
def commitState (st : MapState) (parent : ℕ) (shape : OBB) (size : ℚ) :
    MapState :=
  { st with
    lots := (st.lots.insert_with_key
      (fun id => ⟨id, parent, LotKind.Residential, shape, size⟩)).2,
    spatial_map := st.spatial_map.insertLot st.lots.nextKey shape.bbox }

/-! Basic characterization of `try_make`. -/

theorem tryMake_eq (ctx : GeomCtx) (st : MapState) (parent : ℕ)
    (at_ axis : Vec2) (size : ℚ) :
    tryMake ctx st parent at_ axis size =
      (if ctx.height at_ < (12 / 100 : ℚ) then (none, st)
       else if (st.spatial_map.query (candShape at_ axis size).bbox).any
           (rejects ctx st (candShape at_ axis size)) then (none, st)
       else (some st.lots.nextKey,
         commitState st parent (candShape at_ axis size) size)) := rfl

theorem tryMake_cases (ctx : GeomCtx) (st : MapState) (parent : ℕ)
    (at_ axis : Vec2) (size : ℚ) :
    (tryMake ctx st parent at_ axis size = (none, st) ∧
      (ctx.height at_ < (12 / 100 : ℚ) ∨
        ∃ pk ∈ st.spatial_map.query (candShape at_ axis size).bbox,
          rejects ctx st (candShape at_ axis size) pk = true)) ∨
    (tryMake ctx st parent at_ axis size =
        (some st.lots.nextKey,
         commitState st parent (candShape at_ axis size) size) ∧
      (12 / 100 : ℚ) ≤ ctx.height at_ ∧
      ∀ pk ∈ st.spatial_map.query (candShape at_ axis size).bbox,
        rejects ctx st (candShape at_ axis size) pk = false) := by
  rw [tryMake_eq]
  by_cases h1 : ctx.height at_ < (12 / 100 : ℚ)
  · left
    rw [if_pos h1]
    exact ⟨rfl, Or.inl h1⟩
  · rw [if_neg h1]
    by_cases h2 : (st.spatial_map.query (candShape at_ axis size).bbox).any
        (rejects ctx st (candShape at_ axis size)) = true
    · left
      rw [if_pos h2]
      exact ⟨rfl, Or.inr (List.any_eq_true.mp h2)⟩
    · right
      rw [if_neg h2]
      refine ⟨rfl, le_of_not_lt h1, ?_⟩
      intro pk hmem
      by_contra hne
      exact h2 (List.any_eq_true.mpr ⟨pk, hmem, by simpa using hne⟩)

theorem genSideLoop_none (ctx : GeomCtx) (road : ℕ) (side w : ℚ)
    (pl : Polyline) (st : MapState) (rng : Rng) (size : ℚ)
    (hsize : 0 ≤ size) (d : ℚ) (acc : List ℕ) (h : pl.next d = none) :
    genSideLoop ctx road side w pl st rng size hsize d acc = (st, acc) := by
  rw [genSideLoop]
  split
  next heq => rfl
  next pd heq =>
    rw [h] at heq
    exact Option.noConfusion heq

theorem genSideLoop_success (ctx : GeomCtx) (road : ℕ) (side w : ℚ)
    (pl : Polyline) (st : MapState) (rng : Rng) (size : ℚ)
    (hsize : 0 ≤ size) (d : ℚ) (acc : List ℕ) (pd : Vec2 × Vec2)
    (idv : ℕ) (st2 : MapState)
    (h : pl.next d = some pd)
    (hmk : tryMake ctx st road (pd.1 + side * pd.2.perpendicular * (w + 1))
      (side * pd.2.perpendicular) size = (some idv, st2))
    (hp : 0 ≤ (Rng.pickSize rng).1) :
    genSideLoop ctx road side w pl st rng size hsize d acc =
      genSideLoop ctx road side w pl st2 (Rng.pickSize rng).2
        (Rng.pickSize rng).1 hp
        (d + size * (1 / 2 : ℚ) + 2 + (Rng.pickSize rng).1 * (1 / 2 : ℚ))
        (acc ++ [idv]) := by
  rw [genSideLoop]
  split
  next heq =>
    rw [h] at heq
    exact Option.noConfusion heq
  next pd' heq =>
    rw [h] at heq
    injection heq with heq'
    subst heq'
    dsimp only []
    rw [hmk]

theorem genSideLoop_fail (ctx : GeomCtx) (road : ℕ) (side w : ℚ)
    (pl : Polyline) (st : MapState) (rng : Rng) (size : ℚ)
    (hsize : 0 ≤ size) (d : ℚ) (acc : List ℕ) (pd : Vec2 × Vec2)
    (st2 : MapState)
    (h : pl.next d = some pd)
    (hmk : tryMake ctx st road (pd.1 + side * pd.2.perpendicular * (w + 1))
      (side * pd.2.perpendicular) size = (none, st2)) :
    genSideLoop ctx road side w pl st rng size hsize d acc =
      genSideLoop ctx road side w pl st2 rng size hsize (d + 2) acc := by
  rw [genSideLoop]
  split
  next heq =>
    rw [h] at heq
    exact Option.noConfusion heq
  next pd' heq =>
    rw [h] at heq
    injection heq with heq'
    subst heq'
    dsimp only []
    rw [hmk]

/-! Structure of the committed state. -/

theorem commitState_lots_find (st : MapState) (parent : ℕ) (shape : OBB)
    (size : ℚ) (k : ℕ) :
    (commitState st parent shape size).lots.find k =
      if k = st.lots.nextKey then
        some ⟨st.lots.nextKey, parent, LotKind.Residential, shape, size⟩
      else st.lots.find k := rfl

theorem commitState_nextKey (st : MapState) (parent : ℕ) (shape : OBB)
    (size : ℚ) :
    (commitState st parent shape size).lots.nextKey = st.lots.nextKey + 1 := rfl

theorem commitState_spatial (st : MapState) (parent : ℕ) (shape : OBB)
    (size : ℚ) :
    (commitState st parent shape size).spatial_map =
      (ProjectKind.lot st.lots.nextKey, shape.bbox) :: st.spatial_map := rfl

theorem commitState_rest (st : MapState) (parent : ℕ) (shape : OBB)
    (size : ℚ) :
    (commitState st parent shape size).roads = st.roads ∧
    (commitState st parent shape size).intersections = st.intersections ∧
    (commitState st parent shape size).buildings = st.buildings :=
  ⟨rfl, rfl, rfl⟩

/-! Spatial-index bookkeeping lemmas. -/

theorem lotEntries_cons_self (s : SpatialMap) (k : ℕ) (bb : AABB) :
    lotEntries ((ProjectKind.lot k, bb) :: s) k =
      (ProjectKind.lot k, bb) :: lotEntries s k := by
  simp [lotEntries]

theorem lotEntries_cons_ne (s : SpatialMap) (k k' : ℕ) (bb : AABB)
    (h : k' ≠ k) :
    lotEntries ((ProjectKind.lot k', bb) :: s) k = lotEntries s k := by
  simp [lotEntries, h]

theorem mem_query_of_mem (s : SpatialMap) (bb : AABB)
    (e : ProjectKind × AABB) (he : e ∈ s) (hi : e.2.intersects bb = true) :
    e.1 ∈ s.query bb :=
  List.mem_map_of_mem _ (List.mem_filter.mpr ⟨he, hi⟩)

theorem live_lot_entry {st : MapState} (hsc : SpatialCoherent st) {k : ℕ}
    {l : Lot} (hfind : st.lots.find k = some l) :
    (ProjectKind.lot k, l.shape.bbox) ∈ st.spatial_map := by
  have h := (hsc k).1 l hfind
  have hm : (ProjectKind.lot k, l.shape.bbox) ∈ lotEntries st.spatial_map k := by
    rw [h]
    exact List.mem_singleton.mpr rfl
  exact List.mem_of_mem_filter hm

theorem live_lot_in_query {st : MapState} (hsc : SpatialCoherent st) {k : ℕ}
    {l : Lot} {bb : AABB} (hfind : st.lots.find k = some l)
    (hi : l.shape.bbox.intersects bb = true) :
    ProjectKind.lot k ∈ st.spatial_map.query bb :=
  mem_query_of_mem _ _ _ (live_lot_entry hsc hfind) hi

/-! Coherence is preserved by a commit. -/

theorem keysBound_commit {st : MapState} (hkb : KeysBound st) (parent : ℕ)
    (shape : OBB) (size : ℚ) :
    KeysBound (commitState st parent shape size) := by
  intro k hk
  rw [commitState_nextKey] at hk
  rw [commitState_lots_find, if_neg (by omega)]
  exact hkb k (by omega)

theorem spatialCoherent_commit {st : MapState} (hsc : SpatialCoherent st)
    (hkb : KeysBound st) (parent : ℕ) (shape : OBB) (size : ℚ) :
    SpatialCoherent (commitState st parent shape size) := by
  intro k
  by_cases hk : k = st.lots.nextKey
  · subst hk
    constructor
    · intro l hl
      rw [commitState_lots_find, if_pos rfl] at hl
      injection hl with hl'
      subst hl'
      show lotEntries (commitState st parent shape size).spatial_map _ = _
      rw [commitState_spatial, lotEntries_cons_self,
        (hsc st.lots.nextKey).2 (hkb st.lots.nextKey le_rfl)]
    · intro hnone
      rw [commitState_lots_find, if_pos rfl] at hnone
      exact Option.noConfusion hnone
  · constructor
    · intro l hl
      rw [commitState_lots_find, if_neg hk] at hl
      show lotEntries (commitState st parent shape size).spatial_map _ = _
      rw [commitState_spatial, lotEntries_cons_ne _ _ _ _ (Ne.symm hk)]
      exact (hsc k).1 l hl
    · intro hnone
      rw [commitState_lots_find, if_neg hk] at hnone
      show lotEntries (commitState st parent shape size).spatial_map _ = _
      rw [commitState_spatial, lotEntries_cons_ne _ _ _ _ (Ne.symm hk)]
      exact (hsc k).2 hnone

theorem tryMake_coherent (ctx : GeomCtx) (st : MapState) (parent : ℕ)
    (at_ axis : Vec2) (size : ℚ) (hco : Coherent st) :
    Coherent (tryMake ctx st parent at_ axis size).2 := by
  rcases tryMake_cases ctx st parent at_ axis size with ⟨he, _⟩ | ⟨he, _, _⟩
  · rw [he]
    exact hco
  · rw [he]
    exact ⟨spatialCoherent_commit hco.1 hco.2 _ _ _,
      keysBound_commit hco.2 _ _ _⟩

/-! Non-overlap is preserved by a commit: the placement algorithm's query
loop has vetted every live parcel whose box could touch the candidate. -/

theorem no_live_overlap {ctx : GeomCtx} {st : MapState} {shape : OBB}
    (hgs : GeomSound ctx) (hsc : SpatialCoherent st)
    (hrej : ∀ pk ∈ st.spatial_map.query shape.bbox,
      rejects ctx st shape pk = false) :
    ∀ k l, st.lots.find k = some l →
      ctx.obbIntersects l.shape shape = false := by
  intro k l hfind
  cases hcase : ctx.obbIntersects l.shape shape
  · rfl
  · have hbb := hgs.2.1 _ _ hcase
    have hq := live_lot_in_query hsc hfind hbb
    have hr := hrej _ hq
    simp only [rejects, hfind] at hr
    rw [hcase] at hr
    exact hr

theorem noOverlap_commit {ctx : GeomCtx} {st : MapState} {shape : OBB}
    (hgs : GeomSound ctx) (hsc : SpatialCoherent st) (hkb : KeysBound st)
    (hno : NoOverlap ctx st)
    (hrej : ∀ pk ∈ st.spatial_map.query shape.bbox,
      rejects ctx st shape pk = false) (parent : ℕ) (size : ℚ) :
    NoOverlap ctx (commitState st parent shape size) := by
  have key := no_live_overlap hgs hsc hrej
  intro k1 k2 l1 l2 hne h1 h2
  rw [commitState_lots_find] at h1 h2
  by_cases e1 : k1 = st.lots.nextKey
  · rw [if_pos e1] at h1
    injection h1 with h1'
    subst h1'
    by_cases e2 : k2 = st.lots.nextKey
    · exact absurd (e1.trans e2.symm) hne
    · rw [if_neg e2] at h2
      show ctx.obbIntersects shape l2.shape = false
      rw [hgs.1 shape l2.shape]
      exact key k2 l2 h2
  · rw [if_neg e1] at h1
    by_cases e2 : k2 = st.lots.nextKey
    · rw [if_pos e2] at h2
      injection h2 with h2'
      subst h2'
      exact key k1 l1 h1
    · rw [if_neg e2] at h2
      exact hno k1 k2 l1 l2 hne h1 h2

theorem tryMake_noOverlap (ctx : GeomCtx) (st : MapState) (parent : ℕ)
    (at_ axis : Vec2) (size : ℚ) (hgs : GeomSound ctx) (hco : Coherent st)
    (hno : NoOverlap ctx st) :
    NoOverlap ctx (tryMake ctx st parent at_ axis size).2 := by
  rcases tryMake_cases ctx st parent at_ axis size with ⟨he, _⟩ | ⟨he, _, hrej⟩
  · rw [he]
    exact hno
  · rw [he]
    exact noOverlap_commit hgs hco.1 hco.2 hno hrej parent size

/-! The generation loop and both generation entry points preserve
coherence and non-overlap, and never touch the road, intersection or
building stores. -/

theorem genSideLoop_fixed (ctx : GeomCtx) (road : ℕ) (side w : ℚ)
    (pl : Polyline) (st : MapState) (rng : Rng) (size : ℚ)
    (hsize : 0 ≤ size) (d : ℚ) (acc : List ℕ) :
    (genSideLoop ctx road side w pl st rng size hsize d acc).1.roads = st.roads ∧
    (genSideLoop ctx road side w pl st rng size hsize d acc).1.intersections =
      st.intersections ∧
    (genSideLoop ctx road side w pl st rng size hsize d acc).1.buildings =
      st.buildings := by
  induction st, rng, size, hsize, d, acc using genSideLoop.induct ctx road side w pl with
  | case1 st rng size hsize d acc h =>
    rw [genSideLoop_none ctx road side w pl st rng size hsize d acc h]
    exact ⟨rfl, rfl, rfl⟩
  | case2 st rng size hsize d acc pd h axis idv st2 hmk p ih =>
    rw [genSideLoop_success ctx road side w pl st rng size hsize d acc pd idv
      st2 h hmk (by
        show (0 : ℚ) ≤ lotSizes.getD ((rng.seed + rng.cnt) % 3) 20
        have h3 : (rng.seed + rng.cnt) % 3 < 3 := Nat.mod_lt _ (by norm_num)
        set m := (rng.seed + rng.cnt) % 3 with hm
        interval_cases m <;> decide)]
    have hst2 : st2 = (tryMake ctx st road (pd.1 + side * pd.2.perpendicular * (w + 1))
        (side * pd.2.perpendicular) size).2 := by
      rw [hmk]
    have hfix : st2.roads = st.roads ∧ st2.intersections = st.intersections ∧
        st2.buildings = st.buildings := by
      rw [hst2]
      rcases tryMake_cases ctx st road (pd.1 + side * pd.2.perpendicular * (w + 1))
        (side * pd.2.perpendicular) size with ⟨he, _⟩ | ⟨he, _, _⟩
      · rw [he]
        exact ⟨rfl, rfl, rfl⟩
      · rw [he]
        exact ⟨rfl, rfl, rfl⟩
    exact ⟨ih.1.trans hfix.1, ih.2.1.trans hfix.2.1, ih.2.2.trans hfix.2.2⟩
  | case3 st rng size hsize d acc pd h axis st2 hmk ih =>
    rw [genSideLoop_fail ctx road side w pl st rng size hsize d acc pd st2 h hmk]
    have hst2 : st2 = (tryMake ctx st road (pd.1 + side * pd.2.perpendicular * (w + 1))
        (side * pd.2.perpendicular) size).2 := by
      rw [hmk]
    have hfix : st2.roads = st.roads ∧ st2.intersections = st.intersections ∧
        st2.buildings = st.buildings := by
      rw [hst2]
      rcases tryMake_cases ctx st road (pd.1 + side * pd.2.perpendicular * (w + 1))
        (side * pd.2.perpendicular) size with ⟨he, _⟩ | ⟨he, _, _⟩
      · rw [he]
        exact ⟨rfl, rfl, rfl⟩
      · rw [he]
        exact ⟨rfl, rfl, rfl⟩
    exact ⟨ih.1.trans hfix.1, ih.2.1.trans hfix.2.1, ih.2.2.trans hfix.2.2⟩

theorem genSideLoop_inv (ctx : GeomCtx) (road : ℕ) (side w : ℚ)
    (pl : Polyline) (st : MapState) (rng : Rng) (size : ℚ)
    (hsize : 0 ≤ size) (d : ℚ) (acc : List ℕ) (hgs : GeomSound ctx) :
    Coherent st → NoOverlap ctx st →
      Coherent (genSideLoop ctx road side w pl st rng size hsize d acc).1 ∧
      NoOverlap ctx (genSideLoop ctx road side w pl st rng size hsize d acc).1 := by
  induction st, rng, size, hsize, d, acc using genSideLoop.induct ctx road side w pl with
  | case1 st rng size hsize d acc h =>
    intro hco hno
    rw [genSideLoop_none ctx road side w pl st rng size hsize d acc h]
    exact ⟨hco, hno⟩
  | case2 st rng size hsize d acc pd h axis idv st2 hmk p ih =>
    intro hco hno
    rw [genSideLoop_success ctx road side w pl st rng size hsize d acc pd idv
      st2 h hmk (by
        show (0 : ℚ) ≤ lotSizes.getD ((rng.seed + rng.cnt) % 3) 20
        have h3 : (rng.seed + rng.cnt) % 3 < 3 := Nat.mod_lt _ (by norm_num)
        set m := (rng.seed + rng.cnt) % 3 with hm
        interval_cases m <;> decide)]
    have hst2 : st2 = (tryMake ctx st road (pd.1 + side * pd.2.perpendicular * (w + 1))
        (side * pd.2.perpendicular) size).2 := by
      rw [hmk]
    exact ih (hst2 ▸ tryMake_coherent ctx st road _ _ size hco)
      (hst2 ▸ tryMake_noOverlap ctx st road _ _ size hgs hco hno)
  | case3 st rng size hsize d acc pd h axis st2 hmk ih =>
    intro hco hno
    rw [genSideLoop_fail ctx road side w pl st rng size hsize d acc pd st2 h hmk]
    have hst2 : st2 = (tryMake ctx st road (pd.1 + side * pd.2.perpendicular * (w + 1))
        (side * pd.2.perpendicular) size).2 := by
      rw [hmk]
    exact ih (hst2 ▸ tryMake_coherent ctx st road _ _ size hco)
      (hst2 ▸ tryMake_noOverlap ctx st road _ _ size hgs hco hno)

theorem genSide_eq (ctx : GeomCtx) (st : MapState) (road : ℕ) (side : ℚ) :
    genSide ctx st road side =
      (let res := genSideLoop ctx road side ((st.roads road).width * (1 / 2 : ℚ))
        (st.roads road).generated_points st
        (Rng.pickSize ⟨genSideSeed (st.roads road) side, 0⟩).2
        (Rng.pickSize ⟨genSideSeed (st.roads road) side, 0⟩).1
        (by
          show (0 : ℚ) ≤ lotSizes.getD ((genSideSeed (st.roads road) side + 0) % 3) 20
          have h3 : (genSideSeed (st.roads road) side + 0) % 3 < 3 :=
            Nat.mod_lt _ (by norm_num)
          set m := (genSideSeed (st.roads road) side + 0) % 3 with hm
          interval_cases m <;> decide)
        ((Rng.pickSize ⟨genSideSeed (st.roads road) side, 0⟩).1 * (1 / 2 : ℚ)) []
      ({ res.1 with
          roads := Function.update res.1.roads road
            { res.1.roads road with
              lots := (res.1.roads road).lots ++ res.2 } },
       res.2)) := rfl

theorem coherent_of_roads_change {s1 s2 : MapState} (hl : s1.lots = s2.lots)
    (hs : s1.spatial_map = s2.spatial_map) (hco : Coherent s1) : Coherent s2 := by
  constructor
  · intro k
    constructor
    · intro l hfind
      unfold lotEntries
      rw [← hs]
      exact (hco.1 k).1 l (by rw [hl]; exact hfind)
    · intro hfind
      unfold lotEntries
      rw [← hs]
      exact (hco.1 k).2 (by rw [hl]; exact hfind)
  · intro k hk
    rw [← hl]
    exact hco.2 k (by rw [hl]; exact hk)

theorem noOverlap_of_lots_eq {ctx : GeomCtx} {s1 s2 : MapState}
    (hl : s1.lots = s2.lots) (hno : NoOverlap ctx s1) : NoOverlap ctx s2 := by
  intro k1 k2 l1 l2 hne h1 h2
  exact hno k1 k2 l1 l2 hne (by rw [hl]; exact h1) (by rw [hl]; exact h2)

theorem genSide_inv (ctx : GeomCtx) (st : MapState) (road : ℕ) (side : ℚ)
    (hgs : GeomSound ctx) (hco : Coherent st) (hno : NoOverlap ctx st) :
    Coherent (genSide ctx st road side).1 ∧
    NoOverlap ctx (genSide ctx st road side).1 := by
  rw [genSide_eq]
  have hloop := genSideLoop_inv ctx road side ((st.roads road).width * (1 / 2 : ℚ))
    (st.roads road).generated_points st
    (Rng.pickSize ⟨genSideSeed (st.roads road) side, 0⟩).2
    (Rng.pickSize ⟨genSideSeed (st.roads road) side, 0⟩).1
    (by
      show (0 : ℚ) ≤ lotSizes.getD ((genSideSeed (st.roads road) side + 0) % 3) 20
      have h3 : (genSideSeed (st.roads road) side + 0) % 3 < 3 :=
        Nat.mod_lt _ (by norm_num)
      set m := (genSideSeed (st.roads road) side + 0) % 3 with hm
      interval_cases m <;> decide)
    ((Rng.pickSize ⟨genSideSeed (st.roads road) side, 0⟩).1 * (1 / 2 : ℚ)) []
    hgs hco hno
  exact ⟨coherent_of_roads_change rfl rfl hloop.1,
    noOverlap_of_lots_eq rfl hloop.2⟩

theorem generateAlongRoad_inv (ctx : GeomCtx) (st : MapState) (road : ℕ)
    (hgs : GeomSound ctx) (hco : Coherent st) (hno : NoOverlap ctx st) :
    Coherent (generateAlongRoad ctx st road) ∧
    NoOverlap ctx (generateAlongRoad ctx st road) := by
  unfold generateAlongRoad generateAlongRoadRun
  by_cases h1 : (st.roads road).sidewalkOutgoing <;>
    by_cases h2 : (st.roads road).sidewalkIncoming <;>
      simp only [h1, h2, if_true, if_false, Bool.false_eq_true, ite_true, ite_false]
  · have hs1 := genSide_inv ctx st road 1 hgs hco hno
    exact genSide_inv ctx (genSide ctx st road 1).1 road (-1) hgs hs1.1 hs1.2
  · exact genSide_inv ctx st road 1 hgs hco hno
  · exact genSide_inv ctx st road (-1) hgs hco hno
  · exact ⟨hco, hno⟩

/-! Structure of one removal step. -/

theorem removeOne_of_none {st : MapState} {k : ℕ}
    (h : st.lots.find k = none) : removeOne st k = st := by
  unfold removeOne Lots.remove
  rw [h]

theorem removeOne_of_some {st : MapState} {k : ℕ} {l : Lot}
    (h : st.lots.find k = some l) :
    removeOne st k = { st with
      lots := ⟨st.lots.nextKey, fun k' => if k' = k then none else st.lots.find k'⟩,
      roads := Function.update st.roads l.parent
        { st.roads l.parent with
          lots := roadListErase (st.roads l.parent).lots l.id },
      spatial_map := st.spatial_map.removeLot k } := by
  unfold removeOne Lots.remove
  rw [h]

theorem lotEntries_removeLot (s : SpatialMap) (k k' : ℕ) :
    lotEntries (s.removeLot k) k' =
      if k' = k then [] else lotEntries s k' := by
  by_cases hkk : k' = k
  · rw [if_pos hkk]
    subst hkk
    unfold lotEntries SpatialMap.removeLot
    rw [List.filter_filter]
    apply List.filter_eq_nil_iff.mpr
    intro a _
    by_cases h : a.1 = ProjectKind.lot k' <;> simp [h]
  · rw [if_neg hkk]
    unfold lotEntries SpatialMap.removeLot
    rw [List.filter_filter]
    exact List.filter_congr (fun a _ => by
      by_cases h : a.1 = ProjectKind.lot k' <;> simp [h, hkk])

theorem removeOne_coherent {st : MapState} (k : ℕ) (hco : Coherent st) :
    Coherent (removeOne st k) := by
  cases hf : st.lots.find k with
  | none =>
    rw [removeOne_of_none hf]
    exact hco
  | some l =>
    rw [removeOne_of_some hf]
    constructor
    · intro k'
      constructor
      · intro l' hl'
        show lotEntries (st.spatial_map.removeLot k) k' = _
        rw [lotEntries_removeLot]
        simp only at hl'
        by_cases hkk : k' = k
        · rw [if_pos hkk] at hl'
          exact Option.noConfusion hl'
        · rw [if_neg hkk] at hl'
          rw [if_neg hkk]
          exact (hco.1 k').1 l' hl'
      · intro hl'
        show lotEntries (st.spatial_map.removeLot k) k' = _
        rw [lotEntries_removeLot]
        simp only at hl'
        by_cases hkk : k' = k
        · rw [if_pos hkk]
        · rw [if_neg hkk] at hl'
          rw [if_neg hkk]
          exact (hco.1 k').2 hl'
    · intro k' hk'
      simp only at hk' ⊢
      by_cases hkk : k' = k
      · rw [if_pos hkk]
      · rw [if_neg hkk]
        exact hco.2 k' hk'

theorem removeOne_find_some {st : MapState} {k k' : ℕ} {l' : Lot}
    (h : (removeOne st k).lots.find k' = some l') :
    st.lots.find k' = some l' := by
  cases hf : st.lots.find k with
  | none =>
    rw [removeOne_of_none hf] at h
    exact h
  | some l =>
    rw [removeOne_of_some hf] at h
    simp only at h
    by_cases hkk : k' = k
    · rw [if_pos hkk] at h
      exact Option.noConfusion h
    · rw [if_neg hkk] at h
      exact h

theorem removeOne_noOverlap {ctx : GeomCtx} {st : MapState} (k : ℕ)
    (hno : NoOverlap ctx st) : NoOverlap ctx (removeOne st k) := by
  intro k1 k2 l1 l2 hne h1 h2
  exact hno k1 k2 l1 l2 hne (removeOne_find_some h1) (removeOne_find_some h2)

theorem foldl_removeOne_inv (ctx : GeomCtx) (ks : List ℕ) :
    ∀ st : MapState, Coherent st → NoOverlap ctx st →
      Coherent (ks.foldl removeOne st) ∧
      NoOverlap ctx (ks.foldl removeOne st) := by
  induction ks with
  | nil => exact fun st hco hno => ⟨hco, hno⟩
  | cons k ks ih =>
    intro st hco hno
    exact ih (removeOne st k) (removeOne_coherent k hco)
      (removeOne_noOverlap k hno)

theorem removeIntersectingLots_inv (ctx : GeomCtx) (st : MapState) (road : ℕ)
    (hco : Coherent st) (hno : NoOverlap ctx st) :
    Coherent (removeIntersectingLots ctx st road) ∧
    NoOverlap ctx (removeIntersectingLots ctx st road) :=
  foldl_removeOne_inv ctx (toRemove ctx st road) st hco hno

theorem applyOp_inv (ctx : GeomCtx) (st : MapState) (op : MapOp)
    (hgs : GeomSound ctx) (hco : Coherent st) (hno : NoOverlap ctx st) :
    Coherent (applyOp ctx st op) ∧ NoOverlap ctx (applyOp ctx st op) := by
  cases op with
  | tryMakeOp p a ax s =>
    exact ⟨tryMake_coherent ctx st p a ax s hco,
      tryMake_noOverlap ctx st p a ax s hgs hco hno⟩
  | generateOp r => exact generateAlongRoad_inv ctx st r hgs hco hno
  | removeOp r => exact removeIntersectingLots_inv ctx st r hco hno

theorem applyOps_inv (ctx : GeomCtx) (ops : List MapOp) :
    ∀ st : MapState, GeomSound ctx → Coherent st → NoOverlap ctx st →
      Coherent (applyOps ctx ops st) ∧ NoOverlap ctx (applyOps ctx ops st) := by
  induction ops with
  | nil => exact fun st _ hco hno => ⟨hco, hno⟩
  | cons op ops ih =>
    intro st hgs hco hno
    have h1 := applyOp_inv ctx st op hgs hco hno
    exact ih (applyOp ctx st op) hgs h1.1 h1.2

theorem genSideLoop_coherent (ctx : GeomCtx) (road : ℕ) (side w : ℚ)
    (pl : Polyline) (st : MapState) (rng : Rng) (size : ℚ)
    (hsize : 0 ≤ size) (d : ℚ) (acc : List ℕ) :
    Coherent st →
      Coherent (genSideLoop ctx road side w pl st rng size hsize d acc).1 := by
  induction st, rng, size, hsize, d, acc using genSideLoop.induct ctx road side w pl with
  | case1 st rng size hsize d acc h =>
    intro hco
    rw [genSideLoop_none ctx road side w pl st rng size hsize d acc h]
    exact hco
  | case2 st rng size hsize d acc pd h axis idv st2 hmk p ih =>
    intro hco
    rw [genSideLoop_success ctx road side w pl st rng size hsize d acc pd idv
      st2 h hmk (by
        show (0 : ℚ) ≤ lotSizes.getD ((rng.seed + rng.cnt) % 3) 20
        have h3 : (rng.seed + rng.cnt) % 3 < 3 := Nat.mod_lt _ (by norm_num)
        set m := (rng.seed + rng.cnt) % 3 with hm
        interval_cases m <;> decide)]
    have hst2 : st2 = (tryMake ctx st road (pd.1 + side * pd.2.perpendicular * (w + 1))
        (side * pd.2.perpendicular) size).2 := by
      rw [hmk]
    exact ih (hst2 ▸ tryMake_coherent ctx st road _ _ size hco)
  | case3 st rng size hsize d acc pd h axis st2 hmk ih =>
    intro hco
    rw [genSideLoop_fail ctx road side w pl st rng size hsize d acc pd st2 h hmk]
    have hst2 : st2 = (tryMake ctx st road (pd.1 + side * pd.2.perpendicular * (w + 1))
        (side * pd.2.perpendicular) size).2 := by
      rw [hmk]
    exact ih (hst2 ▸ tryMake_coherent ctx st road _ _ size hco)

theorem genSide_coherent (ctx : GeomCtx) (st : MapState) (road : ℕ)
    (side : ℚ) (hco : Coherent st) : Coherent (genSide ctx st road side).1 := by
  rw [genSide_eq]
  exact coherent_of_roads_change rfl rfl
    (genSideLoop_coherent ctx road side ((st.roads road).width * (1 / 2 : ℚ))
      (st.roads road).generated_points st _ _ _ _ [] hco)

theorem generateAlongRoad_coherent (ctx : GeomCtx) (st : MapState) (road : ℕ)
    (hco : Coherent st) : Coherent (generateAlongRoad ctx st road) := by
  unfold generateAlongRoad generateAlongRoadRun
  by_cases h1 : (st.roads road).sidewalkOutgoing <;>
    by_cases h2 : (st.roads road).sidewalkIncoming <;>
      simp only [h1, h2, if_true, if_false, Bool.false_eq_true, ite_true, ite_false]
  · exact genSide_coherent ctx _ road (-1) (genSide_coherent ctx st road 1 hco)
  · exact genSide_coherent ctx st road 1 hco
  · exact genSide_coherent ctx st road (-1) hco
  · exact hco

theorem foldl_removeOne_coherent (ks : List ℕ) :
    ∀ st : MapState, Coherent st → Coherent (ks.foldl removeOne st) := by
  induction ks with
  | nil => exact fun st hco => hco
  | cons k ks ih =>
    intro st hco
    exact ih (removeOne st k) (removeOne_coherent k hco)

theorem applyOp_coherent (ctx : GeomCtx) (st : MapState) (op : MapOp)
    (hco : Coherent st) : Coherent (applyOp ctx st op) := by
  cases op with
  | tryMakeOp p a ax s => exact tryMake_coherent ctx st p a ax s hco
  | generateOp r => exact generateAlongRoad_coherent ctx st r hco
  | removeOp r => exact foldl_removeOne_coherent (toRemove ctx st r) st hco

/-! The claims. -/

/-- C1: for any two parcels simultaneously present in the collection after
any sequence of `try_make` / `generate_along_road` /
`remove_intersecting_lots` operations starting from a coherent map (with
sound geometry predicates), their oriented-rectangle shapes do not
intersect (invariant I1). -/
theorem C1_no_overlap_invariant (ctx : GeomCtx) (ops : List MapOp)
    (st : MapState) (hgs : GeomSound ctx) (hco : Coherent st)
    (hno : NoOverlap ctx st) : NoOverlap ctx (applyOps ctx ops st) :=
  (applyOps_inv ctx ops st hgs hco hno).2

/-- Witness for C1 on a concrete operation sequence from the empty map. -/
theorem C1_no_overlap_invariant_witness :
    NoOverlap trivialCtx (applyOps trivialCtx
      [MapOp.tryMakeOp 0 ⟨0, 0⟩ ⟨1, 0⟩ 20, MapOp.generateOp 0,
        MapOp.removeOp 0] emptyState) :=
  C1_no_overlap_invariant trivialCtx
    [MapOp.tryMakeOp 0 ⟨0, 0⟩ ⟨1, 0⟩ 20, MapOp.generateOp 0, MapOp.removeOp 0]
    emptyState
    (by
      refine ⟨fun a b => rfl, fun a b h => ?_, fun r s h => ?_,
        fun p s h => ?_⟩ <;> simp [trivialCtx] at h)
    ⟨fun k => ⟨fun l h => Option.noConfusion h, fun _ => rfl⟩,
      fun k _ => rfl⟩
    (fun k1 k2 l1 l2 _ h1 _ => Option.noConfusion h1)

/-- C7: after any one of the three exposed operations completes on a
coherent map, the spatial index contains exactly one entry per live
parcel, keyed by that parcel's identifier, with bounding box equal to the
bounding box of the parcel's current shape (invariant I3). -/
theorem C7_index_coherence (ctx : GeomCtx) (st : MapState) (op : MapOp)
    (hco : Coherent st) : SpatialCoherent (applyOp ctx st op) :=
  (applyOp_coherent ctx st op hco).1

/-- Witness for C7 on a concrete operation from the empty map. -/
theorem C7_index_coherence_witness :
    SpatialCoherent (applyOp trivialCtx emptyState
      (MapOp.tryMakeOp 0 ⟨0, 0⟩ ⟨1, 0⟩ 20)) :=
  C7_index_coherence trivialCtx emptyState
    (MapOp.tryMakeOp 0 ⟨0, 0⟩ ⟨1, 0⟩ 20)
    ⟨fun k => ⟨fun l h => Option.noConfusion h, fun _ => rfl⟩,
      fun k _ => rfl⟩

/-- C4: `try_make` returns nothing and leaves the collection and the index
unchanged exactly when the terrain height at the anchor is below `0.12` or
some queried candidate rejects by exact geometry — and a `Ground`
candidate never rejects. -/
theorem C4_try_make_rejection (ctx : GeomCtx) (st : MapState) (parent : ℕ)
    (at_ axis : Vec2) (size : ℚ) :
    ((tryMake ctx st parent at_ axis size).1 = none ∧
        (tryMake ctx st parent at_ axis size).2 = st ↔
      ctx.height at_ < (12 / 100 : ℚ) ∨
        ∃ pk ∈ st.spatial_map.query (candShape at_ axis size).bbox,
          rejects ctx st (candShape at_ axis size) pk = true) ∧
    rejects ctx st (candShape at_ axis size) ProjectKind.ground = false := by
  constructor
  · constructor
    · intro h
      rcases tryMake_cases ctx st parent at_ axis size with ⟨_, hcond⟩ | ⟨he, _, _⟩
      · exact hcond
      · rw [he] at h
        exact Option.noConfusion h.1
    · intro hcond
      rcases tryMake_cases ctx st parent at_ axis size with ⟨he, _⟩ | ⟨_, hh, hrej⟩
      · rw [he]
        exact ⟨rfl, rfl⟩
      · rcases hcond with hlow | ⟨pk, hmem, htrue⟩
        · exact absurd hlow (not_lt.mpr hh)
        · rw [hrej pk hmem] at htrue
          exact Bool.noConfusion htrue
  · rfl

/-- Witness for C4: low terrain forces a rejection with no mutation. -/
theorem C4_try_make_rejection_witness :
    (tryMake lowCtx emptyState 0 ⟨0, 0⟩ ⟨1, 0⟩ 20).1 = none ∧
    (tryMake lowCtx emptyState 0 ⟨0, 0⟩ ⟨1, 0⟩ 20).2 = emptyState :=
  (C4_try_make_rejection lowCtx emptyState 0 ⟨0, 0⟩ ⟨1, 0⟩ 20).1.mpr
    (Or.inl (by norm_num [lowCtx, trivialCtx]))

/-- C5: when no rejection fires, `try_make` commits exactly one new
parcel — parent as given, kind `Residential`, the given size, shape the
candidate rectangle — under the fresh key, registers that shape's bounding
box in the index under the same key, and returns the key. -/
theorem C5_try_make_commit (ctx : GeomCtx) (st : MapState) (parent : ℕ)
    (at_ axis : Vec2) (size : ℚ)
    (hh : (12 / 100 : ℚ) ≤ ctx.height at_)
    (hrej : ∀ pk ∈ st.spatial_map.query (candShape at_ axis size).bbox,
      rejects ctx st (candShape at_ axis size) pk = false) :
    tryMake ctx st parent at_ axis size =
      (some st.lots.nextKey,
        commitState st parent (candShape at_ axis size) size) ∧
    (commitState st parent (candShape at_ axis size) size).lots.find
        st.lots.nextKey =
      some ⟨st.lots.nextKey, parent, LotKind.Residential,
        candShape at_ axis size, size⟩ ∧
    (∀ k, k ≠ st.lots.nextKey →
      (commitState st parent (candShape at_ axis size) size).lots.find k =
        st.lots.find k) ∧
    (commitState st parent (candShape at_ axis size) size).spatial_map =
      st.spatial_map.insertLot st.lots.nextKey (candShape at_ axis size).bbox := by
  rcases tryMake_cases ctx st parent at_ axis size with ⟨_, hcond⟩ | ⟨he, _, _⟩
  · rcases hcond with hlow | ⟨pk, hmem, htrue⟩
    · exact absurd hlow (not_lt.mpr hh)
    · rw [hrej pk hmem] at htrue
      exact Bool.noConfusion htrue
  · refine ⟨he, ?_, ?_, rfl⟩
    · rw [commitState_lots_find, if_pos rfl]
    · intro k hk
      rw [commitState_lots_find, if_neg hk]

/-- Witness for C5: a concrete commit on the empty map. -/
theorem C5_try_make_commit_witness :
    tryMake trivialCtx emptyState 0 ⟨0, 0⟩ ⟨1, 0⟩ 20 =
      (some emptyState.lots.nextKey,
        commitState emptyState 0 (candShape ⟨0, 0⟩ ⟨1, 0⟩ 20) 20) :=
  (C5_try_make_commit trivialCtx emptyState 0 ⟨0, 0⟩ ⟨1, 0⟩ 20
    (by norm_num [trivialCtx])
    (fun pk hmem => absurd hmem (by
      simp [emptyState, SpatialMap.query]))).1

/-- C9 counterexample: two roads with identical endpoint coordinates,
queried with the same side, receive different seeds when their lengths
differ — the seed is not a function of endpoints and side alone. -/
theorem C9_counterexample :
    roadA.src_point = roadB.src_point ∧ roadA.dst_point = roadB.dst_point ∧
    genSideSeed roadA 1 ≠ genSideSeed roadB 1 := by
  refine ⟨rfl, rfl, ?_⟩
  have e1 : roadA.src_point.x + roadA.dst_point.x = 1 := by
    norm_num [roadA, road0]
  have e2 : roadA.dst_point.y + roadA.src_point.y = 0 := by
    norm_num [roadA, road0]
  have e3 : (1 : ℚ) * roadA.length = 1 := by
    norm_num [roadA, road0]
  have e4 : roadB.src_point.x + roadB.dst_point.x = 1 := by
    norm_num [roadB, roadA, road0]
  have e5 : roadB.dst_point.y + roadB.src_point.y = 0 := by
    norm_num [roadB, roadA, road0]
  have e6 : (1 : ℚ) * roadB.length = 2 := by
    norm_num [roadB, roadA, road0]
  have hA : genSideSeed roadA 1 = rand3bits 1 0 1 := by
    unfold genSideSeed
    rw [e1, e2, e3]
  have hB : genSideSeed roadB 1 = rand3bits 1 0 2 := by
    unfold genSideSeed
    rw [e4, e5, e6]
  rw [hA, hB]
  decide

/-- C9 amended: the frontage seed is a pure function of the road's
endpoint coordinates, the side sign, and the road's length; no other road
attribute enters. -/
theorem C9_seed_determined (r1 r2 : Road) (side : ℚ)
    (hs : r1.src_point = r2.src_point) (hd : r1.dst_point = r2.dst_point)
    (hl : r1.length = r2.length) :
    genSideSeed r1 side = genSideSeed r2 side := by
  unfold genSideSeed
  rw [hs, hd, hl]

/-- Witness for the amended C9: a road and its re-widened copy share the
seed. -/
theorem C9_seed_determined_witness :
    genSideSeed roadA 1 = genSideSeed { roadA with width := 7 } 1 :=
  C9_seed_determined roadA { roadA with width := 7 } 1 rfl rfl rfl

/-- C10: exchanging a road's source and destination endpoints while
keeping its length leaves the frontage seed unchanged for every side sign
(the hashed sums are symmetric under the swap), hence the reversed road
draws the identical sequence of parcel sizes. -/
theorem C10_swap_ends_seed (r : Road) (side : ℚ) :
    genSideSeed (Road.swapEnds r) side = genSideSeed r side ∧
    ∀ n, drawnSize (genSideSeed (Road.swapEnds r) side) n =
      drawnSize (genSideSeed r side) n := by
  have h : genSideSeed (Road.swapEnds r) side = genSideSeed r side := by
    unfold genSideSeed Road.swapEnds
    simp only []
    rw [add_comm r.dst_point.x r.src_point.x,
      add_comm r.src_point.y r.dst_point.y]
  exact ⟨h, fun n => by rw [h]⟩

/-! Counting through `swap_remove`: removing the element at a valid index
removes exactly one occurrence of its value. -/

theorem count_dropLast_getLastD (b : ℕ) (M : List ℕ) (x : ℕ) :
    ((b :: M).dropLast).count x +
        (if x = (b :: M).getLastD 0 then 1 else 0) =
      (b :: M).count x := by
  have hne : (b :: M) ≠ [] := List.cons_ne_nil b M
  have hlast : (b :: M).getLastD 0 = (b :: M).getLast hne := by
    rw [List.getLastD_eq_getLast?, List.getLast?_eq_getLast (b :: M) hne]
    rfl
  conv_rhs => rw [← List.dropLast_append_getLast hne]
  rw [List.count_append, hlast, List.count_singleton]
  simp only [beq_iff_eq]
  split_ifs with h1 h2 <;> omega

theorem count_swapRemove (L : List ℕ) :
    ∀ (i : ℕ), i < L.length → ∀ (x : ℕ),
      (swapRemove L i).count x + (if x = L.getD i 0 then 1 else 0) =
        L.count x := by
  induction L with
  | nil =>
    intro i hi
    exact absurd hi (by simp)
  | cons a L ih =>
    intro i hi x
    cases i with
    | zero =>
      cases L with
      | nil =>
        by_cases hx : x = a <;>
          simp [swapRemove, List.getLastD, List.count_cons, hx]
      | cons b M =>
        show (((a :: b :: M).set 0 ((a :: b :: M).getLastD 0)).dropLast).count x
            + _ = _
        rw [List.set_cons_zero, List.dropLast_cons₂, List.getD_cons_zero]
        have hlast : (a :: b :: M).getLastD 0 = (b :: M).getLastD 0 := by
          rw [List.getLastD_cons, List.getLastD_eq_getLast?,
            List.getLastD_eq_getLast?,
            List.getLast?_eq_getLast (b :: M) (List.cons_ne_nil b M)]
          rfl
        rw [hlast, List.count_cons, List.count_cons]
        have hd := count_dropLast_getLastD b M x
        simp only [beq_iff_eq] at hd ⊢
        split_ifs at hd ⊢ <;> omega
    | succ i =>
      have hi' : i < L.length := by
        simpa using hi
      have hL : L ≠ [] := by
        intro h
        rw [h] at hi'
        exact absurd hi' (by simp)
      show (((a :: L).set (i + 1) ((a :: L).getLastD 0)).dropLast).count x
          + _ = _
      rw [List.set_cons_succ, List.getD_cons_succ]
      have hlast : (a :: L).getLastD 0 = L.getLastD 0 := by
        rw [List.getLastD_cons, List.getLastD_eq_getLast?,
          List.getLastD_eq_getLast?, List.getLast?_eq_getLast L hL]
        rfl
      rw [hlast]
      have hset : L.set i (L.getLastD 0) ≠ [] := by
        intro h
        exact hL ((List.set_eq_nil_iff i (L.getLastD 0)).mp h)
      rw [List.dropLast_cons_of_ne_nil hset, List.count_cons, List.count_cons]
      have hrec := ih i hi' x
      show (swapRemove L i).count x + _ + _ = _
      simp only [beq_iff_eq] at hrec ⊢
      split_ifs at hrec ⊢ <;> omega

theorem count_roadListErase (rl : List ℕ) (k : ℕ) (hmem : k ∈ rl) (x : ℕ) :
    (roadListErase rl k).count x + (if x = k then 1 else 0) = rl.count x := by
  unfold roadListErase
  cases hf : rl.findIdx? (fun y => decide (y = k)) with
  | none =>
    exfalso
    have := List.findIdx?_eq_none_iff.mp hf k hmem
    simp at this
  | some v =>
    obtain ⟨hv, hp, _⟩ := List.findIdx?_eq_some_iff_getElem.mp hf
    have hget : rl.getD v 0 = k := by
      rw [List.getD_eq_getElem rl 0 hv]
      simpa using hp
    rw [← hget]
    exact count_swapRemove rl v hv x

/-! Ownership coherence (I4) through one removal step. -/

theorem removeOne_find (st : MapState) (k0 k : ℕ) :
    (removeOne st k0).lots.find k =
      if k = k0 then none else st.lots.find k := by
  cases hf : st.lots.find k0 with
  | none =>
    rw [removeOne_of_none hf]
    by_cases hkk : k = k0
    · rw [if_pos hkk, hkk]
      exact hf
    · rw [if_neg hkk]
  | some l =>
    rw [removeOne_of_some hf]

theorem removeOne_roadLists {st : MapState} (k : ℕ)
    (hid : ∀ k' l', st.lots.find k' = some l' → l'.id = k')
    (hrlc : RoadListsCoherent st) : RoadListsCoherent (removeOne st k) := by
  cases hf : st.lots.find k with
  | none =>
    rw [removeOne_of_none hf]
    exact hrlc
  | some l =>
    have hlid : l.id = k := hid k l hf
    rw [removeOne_of_some hf]
    intro rid x
    have hcount : ((st.roads l.parent).lots).count k = 1 := by
      have h := hrlc l.parent k
      rw [hf] at h
      simpa using h
    have hmem : k ∈ (st.roads l.parent).lots :=
      List.count_pos_iff.mp (by omega)
    have herase := count_roadListErase (st.roads l.parent).lots k hmem x
    show ((Function.update st.roads l.parent
        { st.roads l.parent with
          lots := roadListErase (st.roads l.parent).lots l.id }) rid).lots.count x =
      match (if x = k then none else st.lots.find x : Option Lot) with
      | some l' => if l'.parent = rid then 1 else 0
      | none => 0
    rw [hlid]
    by_cases hrid : rid = l.parent
    · subst hrid
      rw [Function.update_same]
      show (roadListErase (st.roads l.parent).lots k).count x = _
      by_cases hx : x = k
      · subst hx
        rw [if_pos rfl]
        show _ = 0
        rw [if_pos rfl] at herase
        omega
      · rw [if_neg hx]
        rw [if_neg hx, Nat.add_zero] at herase
        rw [herase]
        exact hrlc l.parent x
    · rw [Function.update_noteq hrid]
      by_cases hx : x = k
      · subst hx
        rw [if_pos rfl]
        show _ = 0
        have hpar : l.parent ≠ rid := fun h => hrid h.symm
        have hold := hrlc rid x
        rw [hf] at hold
        simpa [hpar] using hold
      · rw [if_neg hx]
        exact hrlc rid x

theorem foldl_removeOne_find (ks : List ℕ) :
    ∀ (st : MapState) (k : ℕ),
      ((ks.foldl removeOne st).lots.find k) =
        if k ∈ ks then none else st.lots.find k := by
  induction ks with
  | nil =>
    intro st k
    rw [List.foldl_nil, if_neg (List.not_mem_nil k)]
  | cons k0 ks ih =>
    intro st k
    rw [List.foldl_cons, ih]
    by_cases hks : k ∈ ks
    · rw [if_pos hks, if_pos (List.mem_cons_of_mem k0 hks)]
    · rw [if_neg hks, removeOne_find st k0 k]
      by_cases hk0 : k = k0
      · rw [if_pos hk0, if_pos (by rw [hk0]; exact List.mem_cons_self k0 ks)]
      · rw [if_neg hk0, if_neg (by
          intro hmem
          rcases List.mem_cons.mp hmem with h | h
          · exact hk0 h
          · exact hks h)]

theorem foldl_removeOne_ownership (ks : List ℕ) :
    ∀ st : MapState,
      (∀ k' l', st.lots.find k' = some l' → l'.id = k') →
      RoadListsCoherent st →
      (∀ k' l', (ks.foldl removeOne st).lots.find k' = some l' → l'.id = k') ∧
      RoadListsCoherent (ks.foldl removeOne st) := by
  induction ks with
  | nil => exact fun st hid hrlc => ⟨hid, hrlc⟩
  | cons k ks ih =>
    intro st hid hrlc
    exact ih (removeOne st k)
      (fun k' l' h => hid k' l' (removeOne_find_some h))
      (removeOne_roadLists k hid hrlc)

theorem AABB.intersects_symm (a b : AABB) : a.intersects b = b.intersects a := by
  unfold AABB.intersects
  by_cases h1 : a.ll.x ≤ b.ur.x <;> by_cases h2 : b.ll.x ≤ a.ur.x <;>
    by_cases h3 : a.ll.y ≤ b.ur.y <;> by_cases h4 : b.ll.y ≤ a.ur.y <;>
      simp [h1, h2, h3, h4]

theorem mem_toRemoveRoad {ctx : GeomCtx} {st : MapState} {r : Road} {k : ℕ}
    {l : Lot} (hfind : st.lots.find k = some l)
    (hint : ctx.roadIntersects r l.shape = true)
    (hq : ProjectKind.lot k ∈ st.spatial_map.query r.generated_points.bbox) :
    k ∈ toRemoveRoad ctx st r := by
  unfold toRemoveRoad
  apply List.mem_filterMap.mpr
  refine ⟨ProjectKind.lot k, hq, ?_⟩
  simp [ProjectKind.to_lot, hfind, hint]

theorem mem_toRemoveInterPoly {ctx : GeomCtx} {st : MapState} {p : Polygon}
    {k : ℕ} {l : Lot} (hfind : st.lots.find k = some l)
    (hint : ctx.polyIntersectsPoly p l.shape.toPolygon = true)
    (hq : ProjectKind.lot k ∈ st.spatial_map.query (polygonBBox p)) :
    k ∈ toRemoveInterPoly ctx st p := by
  unfold toRemoveInterPoly
  apply List.mem_filterMap.mpr
  refine ⟨ProjectKind.lot k, hq, ?_⟩
  simp [ProjectKind.to_lot, hfind, hint]

/-- C3: after `remove_intersecting_lots(road)` on a coherent map, no
remaining parcel intersects the road's swept shape or either terminal
intersection's polygon; every marked parcel is gone from the collection,
the spatial index, and every road's parcel list; and the fate of each key
is decided purely by the pre-mutation candidate selection. -/
theorem C3_retraction_complete (ctx : GeomCtx) (st : MapState) (road : ℕ)
    (hgs : GeomSound ctx) (hco : Coherent st)
    (hid : ∀ k l, st.lots.find k = some l → l.id = k)
    (hrlc : RoadListsCoherent st) :
    (∀ k l', (removeIntersectingLots ctx st road).lots.find k = some l' →
      ctx.roadIntersects (st.roads road) l'.shape = false ∧
      ctx.polyIntersectsPoly (st.intersections (st.roads road).src).polygon
        l'.shape.toPolygon = false ∧
      ctx.polyIntersectsPoly (st.intersections (st.roads road).dst).polygon
        l'.shape.toPolygon = false) ∧
    (∀ k, k ∈ toRemove ctx st road →
      (removeIntersectingLots ctx st road).lots.find k = none ∧
      lotEntries (removeIntersectingLots ctx st road).spatial_map k = [] ∧
      ∀ rid, k ∉ ((removeIntersectingLots ctx st road).roads rid).lots) ∧
    (∀ k, (removeIntersectingLots ctx st road).lots.find k = none ↔
      (st.lots.find k = none ∨ k ∈ toRemove ctx st road)) := by
  have hchar : ∀ k, (removeIntersectingLots ctx st road).lots.find k =
      if k ∈ toRemove ctx st road then none else st.lots.find k :=
    fun k => foldl_removeOne_find (toRemove ctx st road) st k
  have hcoh' : Coherent (removeIntersectingLots ctx st road) :=
    foldl_removeOne_coherent (toRemove ctx st road) st hco
  have hown' : (∀ k' l',
      (removeIntersectingLots ctx st road).lots.find k' = some l' → l'.id = k') ∧
      RoadListsCoherent (removeIntersectingLots ctx st road) :=
    foldl_removeOne_ownership (toRemove ctx st road) st hid hrlc
  refine ⟨?_, ?_, ?_⟩
  · intro k l' hfind'
    have hk := hchar k
    rw [hfind'] at hk
    by_cases hmem : k ∈ toRemove ctx st road
    · rw [if_pos hmem] at hk
      exact Option.noConfusion hk
    · rw [if_neg hmem] at hk
      have hfind : st.lots.find k = some l' := hk.symm
      refine ⟨?_, ?_, ?_⟩
      · cases hI : ctx.roadIntersects (st.roads road) l'.shape
        · rfl
        · exfalso
          have hbb := hgs.2.2.1 _ _ hI
          have hbb' : l'.shape.bbox.intersects
              (st.roads road).generated_points.bbox = true := by
            rw [AABB.intersects_symm]
            exact hbb
          have hq := live_lot_in_query hco.1 hfind hbb'
          exact hmem (List.mem_append.mpr (Or.inl (List.mem_append.mpr
            (Or.inl (mem_toRemoveRoad hfind hI hq)))))
      · cases hI : ctx.polyIntersectsPoly
            (st.intersections (st.roads road).src).polygon l'.shape.toPolygon
        · rfl
        · exfalso
          have hbb := hgs.2.2.2 _ _ hI
          have hbb' : l'.shape.bbox.intersects
              (polygonBBox (st.intersections (st.roads road).src).polygon) = true := by
            rw [AABB.intersects_symm]
            exact hbb
          have hq := live_lot_in_query hco.1 hfind hbb'
          exact hmem (List.mem_append.mpr (Or.inl (List.mem_append.mpr
            (Or.inr (mem_toRemoveInterPoly hfind hI hq)))))
      · cases hI : ctx.polyIntersectsPoly
            (st.intersections (st.roads road).dst).polygon l'.shape.toPolygon
        · rfl
        · exfalso
          have hbb := hgs.2.2.2 _ _ hI
          have hbb' : l'.shape.bbox.intersects
              (polygonBBox (st.intersections (st.roads road).dst).polygon) = true := by
            rw [AABB.intersects_symm]
            exact hbb
          have hq := live_lot_in_query hco.1 hfind hbb'
          exact hmem (List.mem_append.mpr (Or.inr
            (mem_toRemoveInterPoly hfind hI hq)))
  · intro k hmem
    have hnone : (removeIntersectingLots ctx st road).lots.find k = none := by
      rw [hchar k, if_pos hmem]
    refine ⟨hnone, (hcoh'.1 k).2 hnone, ?_⟩
    intro rid
    apply List.count_eq_zero.mp
    have h := hown'.2 rid k
    rw [hnone] at h
    exact h
  · intro k
    rw [hchar k]
    by_cases hmem : k ∈ toRemove ctx st road
    · rw [if_pos hmem]
      exact ⟨fun _ => Or.inr hmem, fun _ => rfl⟩
    · rw [if_neg hmem]
      constructor
      · exact fun h => Or.inl h
      · intro h
        rcases h with h | h
        · exact h
        · exact absurd h hmem

/-- Witness for C3 on the empty map. -/
theorem C3_retraction_complete_witness :
    (removeIntersectingLots trivialCtx emptyState 0).lots.find 0 = none ↔
      (emptyState.lots.find 0 = none ∨ 0 ∈ toRemove trivialCtx emptyState 0) :=
  ((C3_retraction_complete trivialCtx emptyState 0
    (by
      refine ⟨fun a b => rfl, fun a b h => ?_, fun r s h => ?_,
        fun p s h => ?_⟩ <;> simp [trivialCtx] at h)
    ⟨fun k => ⟨fun l h => Option.noConfusion h, fun _ => rfl⟩,
      fun k _ => rfl⟩
    (fun k l h => Option.noConfusion h)
    (fun rid k => rfl)).2.2) 0

/-! Ownership coherence (I4) through generation. -/

theorem tryMake_find_untouched (ctx : GeomCtx) (st : MapState) (parent : ℕ)
    (at_ axis : Vec2) (size : ℚ) (k : ℕ) (hk : k ≠ st.lots.nextKey) :
    ((tryMake ctx st parent at_ axis size).2).lots.find k = st.lots.find k := by
  rcases tryMake_cases ctx st parent at_ axis size with ⟨he, _⟩ | ⟨he, _, _⟩
  · rw [he]
  · rw [he]
    show (commitState st parent (candShape at_ axis size) size).lots.find k = _
    rw [commitState_lots_find, if_neg hk]

theorem tryMake_nextKey_mono (ctx : GeomCtx) (st : MapState) (parent : ℕ)
    (at_ axis : Vec2) (size : ℚ) :
    st.lots.nextKey ≤ ((tryMake ctx st parent at_ axis size).2).lots.nextKey := by
  rcases tryMake_cases ctx st parent at_ axis size with ⟨he, _⟩ | ⟨he, _, _⟩
  · rw [he]
  · rw [he]
    show st.lots.nextKey ≤ (commitState st parent (candShape at_ axis size) size).lots.nextKey
    rw [commitState_nextKey]
    omega

theorem genSideLoop_ownership (ctx : GeomCtx) (road : ℕ) (side w : ℚ)
    (pl : Polyline) (st : MapState) (rng : Rng) (size : ℚ) (hsize : 0 ≤ size)
    (d : ℚ) (acc : List ℕ) :
    KeysBound st →
    (∀ k, k ∈ acc → k < st.lots.nextKey ∧
      ∃ l, st.lots.find k = some l ∧ l.parent = road ∧ l.id = k) →
    acc.Nodup →
    ((∀ k, k ∈ (genSideLoop ctx road side w pl st rng size hsize d acc).2 →
        k < (genSideLoop ctx road side w pl st rng size hsize d acc).1.lots.nextKey ∧
        ∃ l, (genSideLoop ctx road side w pl st rng size hsize d acc).1.lots.find k
            = some l ∧ l.parent = road ∧ l.id = k) ∧
      (genSideLoop ctx road side w pl st rng size hsize d acc).2.Nodup ∧
      (∀ k, k ∉ (genSideLoop ctx road side w pl st rng size hsize d acc).2 →
        (genSideLoop ctx road side w pl st rng size hsize d acc).1.lots.find k
          = st.lots.find k) ∧
      (∀ k, k ∈ (genSideLoop ctx road side w pl st rng size hsize d acc).2 →
        k ∉ acc → st.lots.find k = none) ∧
      st.lots.nextKey ≤
        (genSideLoop ctx road side w pl st rng size hsize d acc).1.lots.nextKey ∧
      (∀ k, k ∈ acc →
        k ∈ (genSideLoop ctx road side w pl st rng size hsize d acc).2)) := by
  induction st, rng, size, hsize, d, acc using genSideLoop.induct ctx road side w pl with
  | case1 st rng size hsize d acc h =>
    intro hkb hacc hnd
    rw [genSideLoop_none ctx road side w pl st rng size hsize d acc h]
    exact ⟨hacc, hnd, fun k _ => rfl, fun k hk hnk => absurd hk hnk, le_rfl,
      fun k hk => hk⟩
  | case2 st rng size hsize d acc pd h axis idv st2 hmk p ih =>
    intro hkb hacc hnd
    rcases tryMake_cases ctx st road
        (pd.1 + side * pd.2.perpendicular * (w + 1))
        (side * pd.2.perpendicular) size with ⟨he, _⟩ | ⟨he, _, _⟩
    · rw [he] at hmk
      exact absurd (congrArg Prod.fst hmk) (by simp)
    · have hcomb := he.symm.trans hmk
      have hidv : st.lots.nextKey = idv := by
        have h1 := congrArg Prod.fst hcomb
        simpa using h1
      have hst2 : st2 = commitState st road
          (candShape (pd.1 + side * pd.2.perpendicular * (w + 1))
            (side * pd.2.perpendicular) size) size :=
        (congrArg Prod.snd hcomb).symm
      rw [genSideLoop_success ctx road side w pl st rng size hsize d acc pd idv
        st2 h hmk (by
          show (0 : ℚ) ≤ lotSizes.getD ((rng.seed + rng.cnt) % 3) 20
          have h3 : (rng.seed + rng.cnt) % 3 < 3 := Nat.mod_lt _ (by norm_num)
          set m := (rng.seed + rng.cnt) % 3 with hm
          interval_cases m <;> decide)]
      have hkb2 : KeysBound st2 := by
        rw [hst2]
        exact keysBound_commit hkb _ _ _
      have hnext2 : st2.lots.nextKey = st.lots.nextKey + 1 := by
        rw [hst2]
        rfl
      have hfind2 : ∀ k, k ≠ st.lots.nextKey → st2.lots.find k = st.lots.find k := by
        intro k hk
        rw [hst2, commitState_lots_find, if_neg hk]
      have hacc2 : ∀ k, k ∈ acc ++ [idv] → k < st2.lots.nextKey ∧
          ∃ l, st2.lots.find k = some l ∧ l.parent = road ∧ l.id = k := by
        intro k hk
        rcases List.mem_append.mp hk with hka | hki
        · obtain ⟨hlt, l, hfl, hpar, hlid⟩ := hacc k hka
          refine ⟨by omega, l, ?_, hpar, hlid⟩
          rw [hfind2 k (by omega)]
          exact hfl
        · have hk' : k = idv := by simpa using hki
          subst hk'
          rw [← hidv]
          refine ⟨by omega,
            ⟨st.lots.nextKey, road, LotKind.Residential,
              candShape (pd.1 + side * pd.2.perpendicular * (w + 1))
                (side * pd.2.perpendicular) size, size⟩, ?_, rfl, rfl⟩
          rw [hst2, commitState_lots_find, if_pos rfl]
      have hnd2 : (acc ++ [idv]).Nodup := by
        refine List.Nodup.append hnd (List.nodup_singleton idv) ?_
        intro a ha hai
        have hlt := (hacc a ha).1
        have : a = idv := by simpa using hai
        omega
      obtain ⟨i1, i2, i3, i4, i5, i6⟩ := ih hkb2 hacc2 hnd2
      have hidvmem := i6 idv (List.mem_append.mpr (Or.inr (by simp)))
      refine ⟨i1, i2, ?_, ?_, ?_, ?_⟩
      · intro k hk
        have hkne : k ≠ st.lots.nextKey := by
          intro hkeq
          rw [hkeq, hidv] at hk
          exact hk hidvmem
        exact (i3 k hk).trans (hfind2 k hkne)
      · intro k hk hnacc
        by_cases hka : k ∈ acc ++ [idv]
        · rcases List.mem_append.mp hka with hka' | hki'
          · exact absurd hka' hnacc
          · have : k = idv := by simpa using hki'
            rw [this, ← hidv]
            exact hkb _ le_rfl
        · have hn := i4 k hk hka
          have hkne : k ≠ st.lots.nextKey := by
            intro hkeq
            rw [hkeq, hidv] at hka
            exact hka (List.mem_append.mpr (Or.inr (by simp)))
          rw [← hfind2 k hkne]
          exact hn
      · exact le_trans (by omega) i5
      · intro k hk
        exact i6 k (List.mem_append.mpr (Or.inl hk))
  | case3 st rng size hsize d acc pd h axis st2 hmk ih =>
    intro hkb hacc hnd
    rcases tryMake_cases ctx st road
        (pd.1 + side * pd.2.perpendicular * (w + 1))
        (side * pd.2.perpendicular) size with ⟨he, _⟩ | ⟨he, _, _⟩
    · have hst2 : st2 = st := (congrArg Prod.snd (he.symm.trans hmk)).symm
      rw [genSideLoop_fail ctx road side w pl st rng size hsize d acc pd st2 h hmk]
      rw [hst2] at ih ⊢
      exact ih hkb hacc hnd
    · rw [he] at hmk
      exact absurd (congrArg Prod.fst hmk) (by simp)

theorem roadLists_extend (st0 st1 : MapState) (road : ℕ) (ids : List ℕ)
    (hroads : st1.roads = st0.roads)
    (ho1 : ∀ k, k ∈ ids →
      ∃ l, st1.lots.find k = some l ∧ l.parent = road ∧ l.id = k)
    (ho2 : ids.Nodup)
    (ho3 : ∀ k, k ∉ ids → st1.lots.find k = st0.lots.find k)
    (ho4 : ∀ k, k ∈ ids → st0.lots.find k = none)
    (hrlc : RoadListsCoherent st0) :
    RoadListsCoherent
      ({ st1 with
          roads := Function.update st1.roads road
            ({ st1.roads road with
                lots := (st1.roads road).lots ++ ids }) }) := by
  intro rid x
  show ((Function.update st1.roads road
      ({ st1.roads road with
          lots := (st1.roads road).lots ++ ids })) rid).lots.count x =
    match st1.lots.find x with
    | some l => if l.parent = rid then 1 else 0
    | none => 0
  by_cases hrid : rid = road
  · subst hrid
    rw [Function.update_same]
    show ((st1.roads rid).lots ++ ids).count x = _
    rw [List.count_append, hroads]
    by_cases hx : x ∈ ids
    · obtain ⟨l, hfind, hpar, _⟩ := ho1 x hx
      rw [hfind]
      show (st0.roads rid).lots.count x + ids.count x =
        if l.parent = rid then 1 else 0
      rw [if_pos hpar]
      have h0 : (st0.roads rid).lots.count x = 0 := by
        have h := hrlc rid x
        rw [ho4 x hx] at h
        simpa using h
      rw [h0, List.count_eq_one_of_mem ho2 hx]
    · rw [ho3 x hx, List.count_eq_zero.mpr hx, Nat.add_zero]
      exact hrlc rid x
  · rw [Function.update_noteq hrid, hroads]
    by_cases hx : x ∈ ids
    · obtain ⟨l, hfind, hpar, _⟩ := ho1 x hx
      rw [hfind]
      show (st0.roads rid).lots.count x = if l.parent = rid then 1 else 0
      rw [if_neg (by
        rw [hpar]
        exact fun h => hrid h.symm)]
      have h := hrlc rid x
      rw [ho4 x hx] at h
      simpa using h
    · rw [ho3 x hx]
      exact hrlc rid x

theorem idcoh_extend (st0 st1 : MapState) (road : ℕ) (ids : List ℕ)
    (ho1 : ∀ k, k ∈ ids →
      ∃ l, st1.lots.find k = some l ∧ l.parent = road ∧ l.id = k)
    (ho3 : ∀ k, k ∉ ids → st1.lots.find k = st0.lots.find k)
    (hid : ∀ k l, st0.lots.find k = some l → l.id = k) :
    ∀ k l, st1.lots.find k = some l → l.id = k := by
  intro k l h
  by_cases hk : k ∈ ids
  · obtain ⟨l0, hl0, _, hlid⟩ := ho1 k hk
    have he : l = l0 := by
      have := h.symm.trans hl0
      injection this
    rw [he]
    exact hlid
  · exact hid k l ((ho3 k hk) ▸ h)

theorem genSide_ownership (ctx : GeomCtx) (st : MapState) (road : ℕ)
    (side : ℚ) (hco : Coherent st)
    (hid : ∀ k l, st.lots.find k = some l → l.id = k)
    (hrlc : RoadListsCoherent st) :
    RoadListsCoherent (genSide ctx st road side).1 ∧
    (∀ k l, (genSide ctx st road side).1.lots.find k = some l → l.id = k) := by
  obtain ⟨o1, o2, o3, o4, o5, o6⟩ := genSideLoop_ownership ctx road side
    ((st.roads road).width * (1 / 2 : ℚ)) (st.roads road).generated_points st
    (Rng.pickSize ⟨genSideSeed (st.roads road) side, 0⟩).2
    (Rng.pickSize ⟨genSideSeed (st.roads road) side, 0⟩).1
    (by
      show (0 : ℚ) ≤ lotSizes.getD ((genSideSeed (st.roads road) side + 0) % 3) 20
      have h3 : (genSideSeed (st.roads road) side + 0) % 3 < 3 :=
        Nat.mod_lt _ (by norm_num)
      set m := (genSideSeed (st.roads road) side + 0) % 3 with hm
      interval_cases m <;> decide)
    ((Rng.pickSize ⟨genSideSeed (st.roads road) side, 0⟩).1 * (1 / 2 : ℚ)) []
    hco.2 (fun k hk => absurd hk (List.not_mem_nil k)) List.nodup_nil
  have hfix := genSideLoop_fixed ctx road side
    ((st.roads road).width * (1 / 2 : ℚ)) (st.roads road).generated_points st
    (Rng.pickSize ⟨genSideSeed (st.roads road) side, 0⟩).2
    (Rng.pickSize ⟨genSideSeed (st.roads road) side, 0⟩).1
    (by
      show (0 : ℚ) ≤ lotSizes.getD ((genSideSeed (st.roads road) side + 0) % 3) 20
      have h3 : (genSideSeed (st.roads road) side + 0) % 3 < 3 :=
        Nat.mod_lt _ (by norm_num)
      set m := (genSideSeed (st.roads road) side + 0) % 3 with hm
      interval_cases m <;> decide)
    ((Rng.pickSize ⟨genSideSeed (st.roads road) side, 0⟩).1 * (1 / 2 : ℚ)) []
  constructor
  · exact roadLists_extend st _ road _ hfix.1 (fun k hk => (o1 k hk).2) o2 o3
      (fun k hk => o4 k hk (List.not_mem_nil k)) hrlc
  · exact idcoh_extend st _ road _ (fun k hk => (o1 k hk).2) o3 hid

theorem generateAlongRoad_ownership (ctx : GeomCtx) (st : MapState)
    (road : ℕ) (hco : Coherent st)
    (hid : ∀ k l, st.lots.find k = some l → l.id = k)
    (hrlc : RoadListsCoherent st) :
    RoadListsCoherent (generateAlongRoad ctx st road) := by
  unfold generateAlongRoad generateAlongRoadRun
  by_cases h1 : (st.roads road).sidewalkOutgoing <;>
    by_cases h2 : (st.roads road).sidewalkIncoming <;>
      simp only [h1, h2, if_true, if_false, Bool.false_eq_true, ite_true, ite_false]
  · have g1 := genSide_ownership ctx st road 1 hco hid hrlc
    have c1 := genSide_coherent ctx st road 1 hco
    exact (genSide_ownership ctx (genSide ctx st road 1).1 road (-1) c1 g1.2 g1.1).1
  · exact (genSide_ownership ctx st road 1 hco hid hrlc).1
  · exact (genSide_ownership ctx st road (-1) hco hid hrlc).1
  · exact hrlc

/-- C8 counterexample: `try_make` is one of the exposed operations, it
completes successfully on the coherent empty map and leaves a live parcel
whose identifier is in no road's parcel list — ownership coherence (I4)
does not hold after `try_make`. -/
theorem C8_counterexample :
    Coherent emptyState ∧ RoadListsCoherent emptyState ∧
    (applyOp trivialCtx emptyState
      (MapOp.tryMakeOp 0 ⟨0, 0⟩ ⟨1, 0⟩ 20)).lots.find 0 ≠ none ∧
    ¬ RoadListsCoherent (applyOp trivialCtx emptyState
      (MapOp.tryMakeOp 0 ⟨0, 0⟩ ⟨1, 0⟩ 20)) := by
  rcases tryMake_cases trivialCtx emptyState 0 ⟨0, 0⟩ ⟨1, 0⟩ 20 with
    ⟨_, hcond⟩ | ⟨he, _, _⟩
  · exfalso
    rcases hcond with hlow | ⟨pk, hmem, _⟩
    · norm_num [trivialCtx] at hlow
    · simp [emptyState, SpatialMap.query] at hmem
  · have hsnd : (tryMake trivialCtx emptyState 0 ⟨0, 0⟩ ⟨1, 0⟩ 20).2 =
        commitState emptyState 0 (candShape ⟨0, 0⟩ ⟨1, 0⟩ 20) 20 := by
      rw [he]
    refine ⟨⟨fun k => ⟨fun l h => Option.noConfusion h, fun _ => rfl⟩,
      fun k _ => rfl⟩, fun rid k => rfl, ?_, ?_⟩
    · show (tryMake trivialCtx emptyState 0 ⟨0, 0⟩ ⟨1, 0⟩ 20).2.lots.find 0 ≠ none
      rw [hsnd, commitState_lots_find,
        if_pos (show (0 : ℕ) = emptyState.lots.nextKey from rfl)]
      simp
    · intro hR
      have h00 := hR 0 0
      show False
      rw [show (applyOp trivialCtx emptyState
          (MapOp.tryMakeOp 0 ⟨0, 0⟩ ⟨1, 0⟩ 20)) =
        (tryMake trivialCtx emptyState 0 ⟨0, 0⟩ ⟨1, 0⟩ 20).2 from rfl,
        hsnd] at h00
      rw [commitState_lots_find,
        if_pos (show (0 : ℕ) = emptyState.lots.nextKey from rfl)] at h00
      have hroads : (commitState emptyState 0 (candShape ⟨0, 0⟩ ⟨1, 0⟩ 20) 20).roads
          = emptyState.roads := rfl
      rw [hroads] at h00
      simp [emptyState, road0] at h00

/-- C8 amended: ownership coherence (I4) — every road's parcel list holds
exactly the live parcels whose parent is that road — is preserved by
`generate_along_road` and by `remove_intersecting_lots` on a coherent map,
but not by a bare `try_make`, whose caller must append the new key. -/
theorem C8_ownership_amended (ctx : GeomCtx) (st : MapState) (road : ℕ)
    (hco : Coherent st)
    (hid : ∀ k l, st.lots.find k = some l → l.id = k)
    (hrlc : RoadListsCoherent st) :
    RoadListsCoherent (applyOp ctx st (MapOp.generateOp road)) ∧
    RoadListsCoherent (applyOp ctx st (MapOp.removeOp road)) :=
  ⟨generateAlongRoad_ownership ctx st road hco hid hrlc,
   (foldl_removeOne_ownership (toRemove ctx st road) st hid hrlc).2⟩

/-- Witness for the amended C8 on the empty map. -/
theorem C8_ownership_amended_witness :
    RoadListsCoherent (applyOp trivialCtx emptyState (MapOp.generateOp 0)) ∧
    RoadListsCoherent (applyOp trivialCtx emptyState (MapOp.removeOp 0)) :=
  C8_ownership_amended trivialCtx emptyState 0
    ⟨fun k => ⟨fun l h => Option.noConfusion h, fun _ => rfl⟩,
      fun k _ => rfl⟩
    (fun k l h => Option.noConfusion h)
    (fun rid k => rfl)

/-! Determinism: two runs over identical surrounding geometry stay in
lockstep.  States are compared up to parcel ownership (`StateRel`). -/

theorem stateRel_refl (st : MapState) : StateRel st st :=
  ⟨⟨rfl, fun _ => rfl⟩, rfl,
    fun _ => ⟨rfl, rfl, rfl, rfl, rfl, rfl, rfl, rfl, rfl⟩, rfl, rfl⟩

theorem rejects_congr {ctx : GeomCtx} {s1 s2 : MapState} {shape : OBB}
    (hrel : StateRel s1 s2) (hro : RoadIntersectsGeomOnly ctx) :
    ∀ pk, rejects ctx s1 shape pk = rejects ctx s2 shape pk := by
  intro pk
  cases pk with
  | road r => exact hro _ _ _ (hrel.2.2.1 r)
  | inter i =>
    show ctx.polyIntersectsOBB (s1.intersections i).polygon shape =
      ctx.polyIntersectsOBB (s2.intersections i).polygon shape
    rw [hrel.2.2.2.1]
  | lot h =>
    have hl := hrel.1.2 h
    show (match s1.lots.find h with
      | some l => ctx.obbIntersects l.shape shape
      | none => false) =
      (match s2.lots.find h with
      | some l => ctx.obbIntersects l.shape shape
      | none => false)
    cases h1 : s1.lots.find h with
    | none =>
      cases h2 : s2.lots.find h with
      | none => rfl
      | some l2 =>
        rw [h1, h2] at hl
        exact Option.noConfusion hl
    | some l1 =>
      cases h2 : s2.lots.find h with
      | none =>
        rw [h1, h2] at hl
        exact Option.noConfusion hl
      | some l2 =>
        rw [h1, h2] at hl
        have hshape : l1.shape = l2.shape := by
          have := congrArg (fun o => Option.map Lot.shape o)
            (show (some (l1.stripParent) : Option Lot) = some (l2.stripParent) by
              simpa using hl)
          simpa [Lot.stripParent] using this
        show ctx.obbIntersects l1.shape shape = ctx.obbIntersects l2.shape shape
        rw [hshape]
  | building b =>
    show ((s1.buildings b).faces.any fun p =>
        ctx.polyIntersectsPoly p shape.toPolygon) =
      ((s2.buildings b).faces.any fun p =>
        ctx.polyIntersectsPoly p shape.toPolygon)
    rw [hrel.2.2.2.2]
  | ground => rfl

theorem tryMake_congr {ctx : GeomCtx} {s1 s2 : MapState}
    (hrel : StateRel s1 s2) (hro : RoadIntersectsGeomOnly ctx)
    (p1 p2 : ℕ) (at_ axis : Vec2) (size : ℚ) :
    (tryMake ctx s1 p1 at_ axis size).1 = (tryMake ctx s2 p2 at_ axis size).1 ∧
    StateRel (tryMake ctx s1 p1 at_ axis size).2
      (tryMake ctx s2 p2 at_ axis size).2 := by
  have hq : s1.spatial_map.query (candShape at_ axis size).bbox =
      s2.spatial_map.query (candShape at_ axis size).bbox := by
    rw [hrel.2.1]
  have hfun : (rejects ctx s1 (candShape at_ axis size)) =
      (rejects ctx s2 (candShape at_ axis size)) :=
    funext (rejects_congr hrel hro)
  rw [tryMake_eq, tryMake_eq]
  by_cases hh : ctx.height at_ < (12 / 100 : ℚ)
  · rw [if_pos hh, if_pos hh]
    exact ⟨rfl, hrel⟩
  · rw [if_neg hh, if_neg hh]
    by_cases ha : (s1.spatial_map.query (candShape at_ axis size).bbox).any
        (rejects ctx s1 (candShape at_ axis size)) = true
    · have ha2 : (s2.spatial_map.query (candShape at_ axis size).bbox).any
          (rejects ctx s2 (candShape at_ axis size)) = true := by
        rw [← hq, ← hfun]
        exact ha
      rw [if_pos ha, if_pos ha2]
      exact ⟨rfl, hrel⟩
    · have ha2 : ¬ (s2.spatial_map.query (candShape at_ axis size).bbox).any
          (rejects ctx s2 (candShape at_ axis size)) = true := by
        rw [← hq, ← hfun]
        exact ha
      rw [if_neg ha, if_neg ha2]
      have hnk : s1.lots.nextKey = s2.lots.nextKey := hrel.1.1
      constructor
      · show some s1.lots.nextKey = some s2.lots.nextKey
        rw [hnk]
      · show StateRel (commitState s1 p1 (candShape at_ axis size) size)
          (commitState s2 p2 (candShape at_ axis size) size)
        refine ⟨⟨?_, ?_⟩, ?_, hrel.2.2.1, hrel.2.2.2.1, hrel.2.2.2.2⟩
        · show s1.lots.nextKey + 1 = s2.lots.nextKey + 1
          rw [hnk]
        · intro k
          rw [commitState_lots_find, commitState_lots_find, ← hnk]
          by_cases hk : k = s1.lots.nextKey
          · rw [if_pos hk, if_pos hk]
            simp [Lot.stripParent]
          · rw [if_neg hk, if_neg hk]
            exact hrel.1.2 k
        · show (s1.spatial_map.insertLot s1.lots.nextKey _) =
            (s2.spatial_map.insertLot s2.lots.nextKey _)
          rw [hnk, hrel.2.1]

theorem genSideLoop_congr (ctx : GeomCtx) (road1 road2 : ℕ) (side w : ℚ)
    (pl : Polyline) (hro : RoadIntersectsGeomOnly ctx)
    (st : MapState) (rng : Rng) (size : ℚ) (hsize : 0 ≤ size) (d : ℚ)
    (acc : List ℕ) :
    ∀ s2 : MapState, StateRel st s2 →
      (genSideLoop ctx road1 side w pl st rng size hsize d acc).2 =
        (genSideLoop ctx road2 side w pl s2 rng size hsize d acc).2 ∧
      StateRel (genSideLoop ctx road1 side w pl st rng size hsize d acc).1
        (genSideLoop ctx road2 side w pl s2 rng size hsize d acc).1 := by
  induction st, rng, size, hsize, d, acc using genSideLoop.induct ctx road1 side w pl with
  | case1 st rng size hsize d acc h =>
    intro s2 hrel
    rw [genSideLoop_none ctx road1 side w pl st rng size hsize d acc h,
      genSideLoop_none ctx road2 side w pl s2 rng size hsize d acc h]
    exact ⟨rfl, hrel⟩
  | case2 st rng size hsize d acc pd h axis idv st2 hmk p ih =>
    intro s2 hrel
    have hcg := tryMake_congr hrel hro road1 road2
      (pd.1 + side * pd.2.perpendicular * (w + 1)) (side * pd.2.perpendicular)
      size
    have h1 : (tryMake ctx s2 road2
        (pd.1 + side * pd.2.perpendicular * (w + 1))
        (side * pd.2.perpendicular) size).1 = some idv := by
      rw [← hcg.1, hmk]
    have hmk2 : tryMake ctx s2 road2
        (pd.1 + side * pd.2.perpendicular * (w + 1))
        (side * pd.2.perpendicular) size =
        (some idv, (tryMake ctx s2 road2
          (pd.1 + side * pd.2.perpendicular * (w + 1))
          (side * pd.2.perpendicular) size).2) := by
      rw [← h1]
    have hst2 : st2 = (tryMake ctx st road1
        (pd.1 + side * pd.2.perpendicular * (w + 1))
        (side * pd.2.perpendicular) size).2 := by
      rw [hmk]
    rw [genSideLoop_success ctx road1 side w pl st rng size hsize d acc pd idv
      st2 h hmk (by
        show (0 : ℚ) ≤ lotSizes.getD ((rng.seed + rng.cnt) % 3) 20
        have h3 : (rng.seed + rng.cnt) % 3 < 3 := Nat.mod_lt _ (by norm_num)
        set m := (rng.seed + rng.cnt) % 3 with hm
        interval_cases m <;> decide),
      genSideLoop_success ctx road2 side w pl s2 rng size hsize d acc pd idv
      _ h hmk2 (by
        show (0 : ℚ) ≤ lotSizes.getD ((rng.seed + rng.cnt) % 3) 20
        have h3 : (rng.seed + rng.cnt) % 3 < 3 := Nat.mod_lt _ (by norm_num)
        set m := (rng.seed + rng.cnt) % 3 with hm
        interval_cases m <;> decide)]
    exact ih _ (hst2 ▸ hcg.2)
  | case3 st rng size hsize d acc pd h axis st2 hmk ih =>
    intro s2 hrel
    have hcg := tryMake_congr hrel hro road1 road2
      (pd.1 + side * pd.2.perpendicular * (w + 1)) (side * pd.2.perpendicular)
      size
    have h1 : (tryMake ctx s2 road2
        (pd.1 + side * pd.2.perpendicular * (w + 1))
        (side * pd.2.perpendicular) size).1 = none := by
      rw [← hcg.1, hmk]
    have hmk2 : tryMake ctx s2 road2
        (pd.1 + side * pd.2.perpendicular * (w + 1))
        (side * pd.2.perpendicular) size =
        (none, (tryMake ctx s2 road2
          (pd.1 + side * pd.2.perpendicular * (w + 1))
          (side * pd.2.perpendicular) size).2) := by
      rw [← h1]
    have hst2 : st2 = (tryMake ctx st road1
        (pd.1 + side * pd.2.perpendicular * (w + 1))
        (side * pd.2.perpendicular) size).2 := by
      rw [hmk]
    rw [genSideLoop_fail ctx road1 side w pl st rng size hsize d acc pd st2 h hmk,
      genSideLoop_fail ctx road2 side w pl s2 rng size hsize d acc pd _ h hmk2]
    exact ih _ (hst2 ▸ hcg.2)

theorem roadGeomEq_refl (a : Road) : RoadGeomEq a a :=
  ⟨rfl, rfl, rfl, rfl, rfl, rfl, rfl, rfl, rfl⟩

theorem roadGeomEq_symm {a b : Road} (h : RoadGeomEq a b) : RoadGeomEq b a := by
  obtain ⟨h1, h2, h3, h4, h5, h6, h7, h8, h9⟩ := h
  exact ⟨h1.symm, h2.symm, h3.symm, h4.symm, h5.symm, h6.symm, h7.symm,
    h8.symm, h9.symm⟩

theorem roadGeomEq_trans {a b c : Road} (hab : RoadGeomEq a b)
    (hbc : RoadGeomEq b c) : RoadGeomEq a c := by
  obtain ⟨h1, h2, h3, h4, h5, h6, h7, h8, h9⟩ := hab
  obtain ⟨g1, g2, g3, g4, g5, g6, g7, g8, g9⟩ := hbc
  exact ⟨h1.trans g1, h2.trans g2, h3.trans g3, h4.trans g4, h5.trans g5,
    h6.trans g6, h7.trans g7, h8.trans g8, h9.trans g9⟩

theorem roadGeomEq_lots_update (r : Road) (L : List ℕ) :
    RoadGeomEq ({ r with lots := L }) r :=
  ⟨rfl, rfl, rfl, rfl, rfl, rfl, rfl, rfl, rfl⟩

theorem roadGeomEq_of_eq {a b : Road} (h : a = b) : RoadGeomEq a b := by
  rw [h]
  exact roadGeomEq_refl b

theorem roadC2Eq_of_geomEq {a a' b b' : Road} (ha : RoadGeomEq a a')
    (hb : RoadGeomEq b b') (h : RoadC2Eq a' b') : RoadC2Eq a b := by
  obtain ⟨a1, a2, a3, a4, a5, a6, a7, a8, a9⟩ := ha
  obtain ⟨b1, b2, b3, b4, b5, b6, b7, b8, b9⟩ := hb
  obtain ⟨c1, c2, c3, c4, c5, c6, c7⟩ := h
  exact ⟨a3.trans (c1.trans b3.symm), a4.trans (c2.trans b4.symm),
    a7.trans (c3.trans b7.symm), a5.trans (c4.trans b5.symm),
    a6.trans (c5.trans b6.symm), a8.trans (c6.trans b8.symm),
    a9.trans (c7.trans b9.symm)⟩

theorem roadGeomEq_update {f1 f2 : ℕ → Road} {r1 r2 : ℕ} {R1 R2 : Road}
    (hgr : ∀ rid, RoadGeomEq (f1 rid) (f2 rid))
    (h1 : RoadGeomEq R1 (f1 r1)) (h2 : RoadGeomEq R2 (f2 r2)) :
    ∀ rid, RoadGeomEq ((Function.update f1 r1 R1) rid)
      ((Function.update f2 r2 R2) rid) := by
  intro rid
  by_cases e1 : rid = r1
  · subst e1
    rw [Function.update_same]
    by_cases e2 : rid = r2
    · subst e2
      rw [Function.update_same]
      exact roadGeomEq_trans h1 (roadGeomEq_trans (hgr _) (roadGeomEq_symm h2))
    · rw [Function.update_noteq e2]
      exact roadGeomEq_trans h1 (hgr _)
  · rw [Function.update_noteq e1]
    by_cases e2 : rid = r2
    · subst e2
      rw [Function.update_same]
      exact roadGeomEq_trans (hgr _) (roadGeomEq_symm h2)
    · rw [Function.update_noteq e2]
      exact hgr _

theorem createdSizesShapes_congr {s1 s2 : MapState}
    (hrel : StateRel s1 s2) (ids : List ℕ) :
    createdSizesShapes s1 ids = createdSizesShapes s2 ids := by
  unfold createdSizesShapes
  have hfun : ∀ k, (s1.lots.find k).map (fun l => (l.size, l.shape)) =
      (s2.lots.find k).map (fun l => (l.size, l.shape)) := by
    intro k
    have hl := hrel.1.2 k
    cases h1 : s1.lots.find k with
    | none =>
      cases h2 : s2.lots.find k with
      | none => rfl
      | some l2 =>
        rw [h1, h2] at hl
        exact Option.noConfusion hl
    | some l1 =>
      cases h2 : s2.lots.find k with
      | none =>
        rw [h1, h2] at hl
        exact Option.noConfusion hl
      | some l2 =>
        rw [h1, h2] at hl
        have hst : l1.stripParent = l2.stripParent := by
          simpa using hl
        have hsz : l1.size = l2.size := by
          have h := congrArg Lot.size hst
          simpa [Lot.stripParent] using h
        have hsh : l1.shape = l2.shape := by
          have h := congrArg Lot.shape hst
          simpa [Lot.stripParent] using h
        simp [hsz, hsh]
  have hfe : (fun k => (s1.lots.find k).map (fun l => (l.size, l.shape))) =
      (fun k => (s2.lots.find k).map (fun l => (l.size, l.shape))) :=
    funext hfun
  rw [hfe]

theorem genSide_run_eq (ctx : GeomCtx) (st : MapState) (road : ℕ) (side : ℚ)
    (w : ℚ) (pl : Polyline) (sd : ℕ)
    (hw : w = (st.roads road).width * (1 / 2 : ℚ))
    (hpl : pl = (st.roads road).generated_points)
    (hsd : sd = genSideSeed (st.roads road) side) :
    genSide ctx st road side =
      (let res := genSideLoop ctx road side w pl st (Rng.pickSize ⟨sd, 0⟩).2
        (Rng.pickSize ⟨sd, 0⟩).1
        (by
          show (0 : ℚ) ≤ lotSizes.getD ((sd + 0) % 3) 20
          have h3 : (sd + 0) % 3 < 3 := Nat.mod_lt _ (by norm_num)
          set m := (sd + 0) % 3 with hm
          interval_cases m <;> decide)
        ((Rng.pickSize ⟨sd, 0⟩).1 * (1 / 2 : ℚ)) []
      ({ res.1 with
          roads := Function.update res.1.roads road
            ({ res.1.roads road with
                lots := (res.1.roads road).lots ++ res.2 }) },
       res.2)) := by
  subst hw hpl hsd
  exact genSide_eq ctx st road side

theorem genSide_congr (ctx : GeomCtx) (hro : RoadIntersectsGeomOnly ctx)
    (s1 s2 : MapState) (road1 road2 : ℕ) (side : ℚ)
    (hrel : StateRel s1 s2)
    (hC2 : RoadC2Eq (s1.roads road1) (s2.roads road2)) :
    (genSide ctx s1 road1 side).2 = (genSide ctx s2 road2 side).2 ∧
    StateRel (genSide ctx s1 road1 side).1 (genSide ctx s2 road2 side).1 ∧
    RoadC2Eq ((genSide ctx s1 road1 side).1.roads road1)
      ((genSide ctx s2 road2 side).1.roads road2) := by
  obtain ⟨hsrc, hdst, hgp, hwd, hlen, hout, hinc⟩ := hC2
  have hseed : genSideSeed (s1.roads road1) side =
      genSideSeed (s2.roads road2) side := by
    unfold genSideSeed
    rw [hsrc, hdst, hlen]
  have hcong := genSideLoop_congr ctx road1 road2 side
    ((s1.roads road1).width * (1 / 2 : ℚ)) (s1.roads road1).generated_points
    hro s1
    (Rng.pickSize ⟨genSideSeed (s1.roads road1) side, 0⟩).2
    (Rng.pickSize ⟨genSideSeed (s1.roads road1) side, 0⟩).1
    (by
      show (0 : ℚ) ≤ lotSizes.getD ((genSideSeed (s1.roads road1) side + 0) % 3) 20
      have h3 : (genSideSeed (s1.roads road1) side + 0) % 3 < 3 :=
        Nat.mod_lt _ (by norm_num)
      set m := (genSideSeed (s1.roads road1) side + 0) % 3 with hm
      interval_cases m <;> decide)
    ((Rng.pickSize ⟨genSideSeed (s1.roads road1) side, 0⟩).1 * (1 / 2 : ℚ)) []
    s2 hrel
  have hfix1 := genSideLoop_fixed ctx road1 side
    ((s1.roads road1).width * (1 / 2 : ℚ)) (s1.roads road1).generated_points s1
    (Rng.pickSize ⟨genSideSeed (s1.roads road1) side, 0⟩).2
    (Rng.pickSize ⟨genSideSeed (s1.roads road1) side, 0⟩).1
    (by
      show (0 : ℚ) ≤ lotSizes.getD ((genSideSeed (s1.roads road1) side + 0) % 3) 20
      have h3 : (genSideSeed (s1.roads road1) side + 0) % 3 < 3 :=
        Nat.mod_lt _ (by norm_num)
      set m := (genSideSeed (s1.roads road1) side + 0) % 3 with hm
      interval_cases m <;> decide)
    ((Rng.pickSize ⟨genSideSeed (s1.roads road1) side, 0⟩).1 * (1 / 2 : ℚ)) []
  have hfix2 := genSideLoop_fixed ctx road2 side
    ((s1.roads road1).width * (1 / 2 : ℚ)) (s1.roads road1).generated_points s2
    (Rng.pickSize ⟨genSideSeed (s1.roads road1) side, 0⟩).2
    (Rng.pickSize ⟨genSideSeed (s1.roads road1) side, 0⟩).1
    (by
      show (0 : ℚ) ≤ lotSizes.getD ((genSideSeed (s1.roads road1) side + 0) % 3) 20
      have h3 : (genSideSeed (s1.roads road1) side + 0) % 3 < 3 :=
        Nat.mod_lt _ (by norm_num)
      set m := (genSideSeed (s1.roads road1) side + 0) % 3 with hm
      interval_cases m <;> decide)
    ((Rng.pickSize ⟨genSideSeed (s1.roads road1) side, 0⟩).1 * (1 / 2 : ℚ)) []
  rw [genSide_run_eq ctx s1 road1 side
      ((s1.roads road1).width * (1 / 2 : ℚ)) (s1.roads road1).generated_points
      (genSideSeed (s1.roads road1) side) rfl rfl rfl,
    genSide_run_eq ctx s2 road2 side
      ((s1.roads road1).width * (1 / 2 : ℚ)) (s1.roads road1).generated_points
      (genSideSeed (s1.roads road1) side)
      (by rw [hwd]) (by rw [hgp]) (by rw [hseed])]
  dsimp only []
  refine ⟨hcong.1, ⟨hcong.2.1, hcong.2.2.1, ?_, hcong.2.2.2.2.1,
    hcong.2.2.2.2.2⟩, ?_⟩
  · exact roadGeomEq_update hcong.2.2.2.1 (roadGeomEq_lots_update _ _)
      (roadGeomEq_lots_update _ _)
  · rw [Function.update_same, Function.update_same]
    exact roadC2Eq_of_geomEq
      (roadGeomEq_trans (roadGeomEq_lots_update _ _)
        (roadGeomEq_of_eq (congrFun hfix1.1 road1)))
      (roadGeomEq_trans (roadGeomEq_lots_update _ _)
        (roadGeomEq_of_eq (congrFun hfix2.1 road2)))
      ⟨hsrc, hdst, hgp, hwd, hlen, hout, hinc⟩

theorem generateAlongRoadRun_congr (ctx : GeomCtx)
    (hro : RoadIntersectsGeomOnly ctx) (st : MapState) (r1 r2 : ℕ)
    (hC2 : RoadC2Eq (st.roads r1) (st.roads r2)) :
    (generateAlongRoadRun ctx st r1).2 = (generateAlongRoadRun ctx st r2).2 ∧
    StateRel (generateAlongRoadRun ctx st r1).1
      (generateAlongRoadRun ctx st r2).1 := by
  have hout : (st.roads r2).sidewalkOutgoing = (st.roads r1).sidewalkOutgoing :=
    (hC2.2.2.2.2.2.1).symm
  have hinc : (st.roads r2).sidewalkIncoming = (st.roads r1).sidewalkIncoming :=
    (hC2.2.2.2.2.2.2).symm
  unfold generateAlongRoadRun
  rw [hout, hinc]
  by_cases h1 : (st.roads r1).sidewalkOutgoing <;>
    by_cases h2 : (st.roads r1).sidewalkIncoming <;>
      simp only [h1, h2, if_true, if_false, Bool.false_eq_true, ite_true,
        ite_false]
  · have g1 := genSide_congr ctx hro st st r1 r2 1 (stateRel_refl st) hC2
    have g2 := genSide_congr ctx hro (genSide ctx st r1 1).1
      (genSide ctx st r2 1).1 r1 r2 (-1) g1.2.1 g1.2.2
    refine ⟨?_, g2.2.1⟩
    rw [g1.1, g2.1]
  · have g1 := genSide_congr ctx hro st st r1 r2 1 (stateRel_refl st) hC2
    refine ⟨?_, g1.2.1⟩
    rw [g1.1]
  · have g1 := genSide_congr ctx hro st st r1 r2 (-1) (stateRel_refl st) hC2
    refine ⟨?_, g1.2.1⟩
    rw [g1.1]
  · exact ⟨trivial, stateRel_refl st⟩

/-- C2: generating along two roads with identical endpoint coordinates,
generated centerline, width, length and sidewalk layout, against identical
surrounding geometry, creates the same keys in the same order with
identical sizes and identically positioned (same-shape) parcels. -/
theorem C2_generate_deterministic (ctx : GeomCtx) (st : MapState)
    (r1 r2 : ℕ) (hro : RoadIntersectsGeomOnly ctx)
    (hC2 : RoadC2Eq (st.roads r1) (st.roads r2)) :
    (generateAlongRoadRun ctx st r1).2 = (generateAlongRoadRun ctx st r2).2 ∧
    createdSizesShapes (generateAlongRoadRun ctx st r1).1
        (generateAlongRoadRun ctx st r1).2 =
      createdSizesShapes (generateAlongRoadRun ctx st r2).1
        (generateAlongRoadRun ctx st r2).2 := by
  have h := generateAlongRoadRun_congr ctx hro st r1 r2 hC2
  refine ⟨h.1, ?_⟩
  rw [h.1]
  exact createdSizesShapes_congr h.2 _

/-- Witness for C2: two distinct road slots of the empty map carrying the
same road record. -/
theorem C2_generate_deterministic_witness :
    (generateAlongRoadRun trivialCtx emptyState 0).2 =
      (generateAlongRoadRun trivialCtx emptyState 1).2 ∧
    createdSizesShapes (generateAlongRoadRun trivialCtx emptyState 0).1
        (generateAlongRoadRun trivialCtx emptyState 0).2 =
      createdSizesShapes (generateAlongRoadRun trivialCtx emptyState 1).1
        (generateAlongRoadRun trivialCtx emptyState 1).2 :=
  C2_generate_deterministic trivialCtx emptyState 0 1
    (fun a b s _ => rfl)
    ⟨rfl, rfl, rfl, rfl, rfl, rfl, rfl⟩

/-! The generation walk agrees with the specification's wording of the
stepping policy. -/

theorem specFrontageWalk_none (ctx : GeomCtx) (road : ℕ) (side width : ℚ)
    (pl : Polyline) (st : MapState) (rng : Rng) (size : ℚ)
    (hsize : 0 ≤ size) (d : ℚ) (acc : List ℕ) (h : pl.next d = none) :
    specFrontageWalk ctx road side width pl st rng size hsize d acc =
      (st, acc) := by
  rw [specFrontageWalk]
  split
  next heq => rfl
  next pd heq =>
    rw [h] at heq
    exact Option.noConfusion heq

theorem specFrontageWalk_success (ctx : GeomCtx) (road : ℕ) (side width : ℚ)
    (pl : Polyline) (st : MapState) (rng : Rng) (size : ℚ)
    (hsize : 0 ≤ size) (d : ℚ) (acc : List ℕ) (pd : Vec2 × Vec2)
    (idv : ℕ) (st2 : MapState)
    (h : pl.next d = some pd)
    (hmk : tryMake ctx st road (pd.1 + side * pd.2.perpendicular * (width / 2 + 1))
      (side * pd.2.perpendicular) size = (some idv, st2))
    (hp : 0 ≤ (Rng.pickSize rng).1) :
    specFrontageWalk ctx road side width pl st rng size hsize d acc =
      specFrontageWalk ctx road side width pl st2 (Rng.pickSize rng).2
        (Rng.pickSize rng).1 hp
        (d + (size / 2 + 2 + (Rng.pickSize rng).1 / 2))
        (acc ++ [idv]) := by
  rw [specFrontageWalk]
  split
  next heq =>
    rw [h] at heq
    exact Option.noConfusion heq
  next pd' heq =>
    rw [h] at heq
    injection heq with heq'
    subst heq'
    dsimp only []
    rw [hmk]

theorem specFrontageWalk_fail (ctx : GeomCtx) (road : ℕ) (side width : ℚ)
    (pl : Polyline) (st : MapState) (rng : Rng) (size : ℚ)
    (hsize : 0 ≤ size) (d : ℚ) (acc : List ℕ) (pd : Vec2 × Vec2)
    (st2 : MapState)
    (h : pl.next d = some pd)
    (hmk : tryMake ctx st road (pd.1 + side * pd.2.perpendicular * (width / 2 + 1))
      (side * pd.2.perpendicular) size = (none, st2)) :
    specFrontageWalk ctx road side width pl st rng size hsize d acc =
      specFrontageWalk ctx road side width pl st2 rng size hsize (d + 2) acc := by
  rw [specFrontageWalk]
  split
  next heq =>
    rw [h] at heq
    exact Option.noConfusion heq
  next pd' heq =>
    rw [h] at heq
    injection heq with heq'
    subst heq'
    dsimp only []
    rw [hmk]

theorem genSideLoop_eq_specWalk (ctx : GeomCtx) (road : ℕ) (side width : ℚ)
    (pl : Polyline) (st : MapState) (rng : Rng) (size : ℚ) (hsize : 0 ≤ size)
    (d : ℚ) (acc : List ℕ) :
    genSideLoop ctx road side (width * (1 / 2 : ℚ)) pl st rng size hsize d acc =
      specFrontageWalk ctx road side width pl st rng size hsize d acc := by
  induction st, rng, size, hsize, d, acc using genSideLoop.induct ctx road side
      (width * (1 / 2 : ℚ)) pl with
  | case1 st rng size hsize d acc h =>
    rw [genSideLoop_none ctx road side (width * (1 / 2 : ℚ)) pl st rng size
      hsize d acc h,
      specFrontageWalk_none ctx road side width pl st rng size hsize d acc h]
  | case2 st rng size hsize d acc pd h axis idv st2 hmk p ih =>
    have hq : width * (1 / 2 : ℚ) + 1 = width / 2 + 1 := by ring
    have hmk' : tryMake ctx st road
        (pd.1 + side * pd.2.perpendicular * (width / 2 + 1))
        (side * pd.2.perpendicular) size = (some idv, st2) := by
      rw [← hq]
      exact hmk
    have hp : (0 : ℚ) ≤ (Rng.pickSize rng).1 := by
      show (0 : ℚ) ≤ lotSizes.getD ((rng.seed + rng.cnt) % 3) 20
      have h3 : (rng.seed + rng.cnt) % 3 < 3 := Nat.mod_lt _ (by norm_num)
      set m := (rng.seed + rng.cnt) % 3 with hm
      interval_cases m <;> decide
    rw [genSideLoop_success ctx road side (width * (1 / 2 : ℚ)) pl st rng size
        hsize d acc pd idv st2 h hmk hp,
      specFrontageWalk_success ctx road side width pl st rng size hsize d acc
        pd idv st2 h hmk' hp]
    have hd : d + size * (1 / 2 : ℚ) + 2 + (Rng.pickSize rng).1 * (1 / 2 : ℚ) =
        d + (size / 2 + 2 + (Rng.pickSize rng).1 / 2) := by ring
    rw [hd] at ih ⊢
    exact ih
  | case3 st rng size hsize d acc pd h axis st2 hmk ih =>
    have hq : width * (1 / 2 : ℚ) + 1 = width / 2 + 1 := by ring
    have hmk' : tryMake ctx st road
        (pd.1 + side * pd.2.perpendicular * (width / 2 + 1))
        (side * pd.2.perpendicular) size = (none, st2) := by
      rw [← hq]
      exact hmk
    rw [genSideLoop_fail ctx road side (width * (1 / 2 : ℚ)) pl st rng size
        hsize d acc pd st2 h hmk,
      specFrontageWalk_fail ctx road side width pl st rng size hsize d acc
        pd st2 h hmk']
    exact ih

/-- C6: one side of the frontage generation is exactly the walk the
specification describes — parcels anchored on the centerline offset
outward by half the road width plus `1.0`, first attempt at half the first
drawn size, each success advancing by `s/2 + 2.0 + s'/2`, each failure by
`2.0`, stopping when the arc length runs off the centerline. -/
theorem C6_frontage_stepping (ctx : GeomCtx) (st : MapState) (road : ℕ)
    (side : ℚ) :
    genSide ctx st road side = specFrontageGen ctx st road side := by
  rw [genSide_eq]
  unfold specFrontageGen
  have hd0 : (Rng.pickSize ⟨genSideSeed (st.roads road) side, 0⟩).1 *
      (1 / 2 : ℚ) =
      (Rng.pickSize ⟨genSideSeed (st.roads road) side, 0⟩).1 / 2 := by
    ring
  rw [hd0, genSideLoop_eq_specWalk ctx road side (st.roads road).width
    (st.roads road).generated_points st
    (Rng.pickSize ⟨genSideSeed (st.roads road) side, 0⟩).2
    (Rng.pickSize ⟨genSideSeed (st.roads road) side, 0⟩).1
    (by
      show (0 : ℚ) ≤ lotSizes.getD ((genSideSeed (st.roads road) side + 0) % 3) 20
      have h3 : (genSideSeed (st.roads road) side + 0) % 3 < 3 :=
        Nat.mod_lt _ (by norm_num)
      set m := (genSideSeed (st.roads road) side + 0) % 3 with hm
      interval_cases m <;> decide)
    ((Rng.pickSize ⟨genSideSeed (st.roads road) side, 0⟩).1 / 2) []]

end Scale
